import Mathlib

/-!
Verification of the graph knowledge store (MetaGraph / Conception / Knowledge /
Language) against its specification.

The development shallowly embeds the Python sources:

* `src/cor/metagraph/MetaGraph.py` — in-memory graph container (`Vertex`, `Arc`,
  `MetaGraph`) with add / remove / filter / join / copy and the traversal
  protocol (`dfs` / `bfs` / `visit`, embedded separately in the `Trav`
  namespace over an object heap, because arcs alias vertex objects and may
  form cycles).
* `src/cor/knowledge/Conception.py` — `Conception`, a rooted detached subgraph
  with set algebra.
* `src/cor/knowledge/Concept.py` — `Concept`, the record-constructed vertex.
* `src/cor/knowledge/Knowledge.py` — bounded subgraph slicing over a persisted
  store.
* `src/cor/knowledge/Language.py` — the relation vocabulary (`HAS`, ...).

Python conventions used by the embedding:

* Exceptions are modelled by `Except PyError`; the constructors name the
  Python exception class raised on that path.
* Python `dict`s (insertion ordered, unique keys) are association lists.
* Python `float` weights are only ever copied, never computed with, so they
  are modelled as `Int`.
* `uuid.uuid4()` default guids are modelled as `Option Int`: a `none` stored
  in a `guid` field stands for the fresh uuid minted at construction (no claim
  compares guid values).
-/

/-- Python exception classes that the embedded code can raise. -/
inductive PyError where
  | typeError
  | attributeError
  | keyError
  | outOfFuel
deriving DecidableEq, Repr

/-- The fields of a referenced vertex object that an in-memory `Arc` reads
through its `start` / `end` references (`MetaGraph.remove` compares `.id`,
`MetaGraph.copy_to` reads `.name`).  Vertex ids and names are never mutated by
the embedded operations, so the snapshot is faithful to the Python aliasing. -/
structure VertexRef where
  id : Int
  name : String
deriving DecidableEq, Repr

/-- `Arc` from `MetaGraph.py` (`end` is spelled `endv`: `end` is a Lean
keyword). -/
structure Arc where
  id : Int
  guid : Option Int
  name : String
  weight : Int
  start : VertexRef
  endv : VertexRef
  anchor : Option Int
deriving DecidableEq, Repr

/-- `Vertex` from `MetaGraph.py`, merged with the fields of its subclass
`Concept` (`Concept.__init__` sets `value` and does *not* set `weight`, so both
are `Option`: `none` models the attribute being absent on the object). -/
structure Vertex where
  id : Int
  guid : Option Int
  name : String
  weight : Option Int
  value : Option Int
  arcs : List Arc
  anchor : Option Int
deriving DecidableEq, Repr

/-- `MetaGraph`: `self.vertices` is a Python dict keyed by vertex name. -/
structure MetaGraph where
  vertices : List (String × Vertex)
deriving DecidableEq, Repr

/-- Keys accepted by `MetaGraph.get_vertex`: an `int` id or a name. -/
inductive VKey where
  | int (i : Int)
  | str (s : String)
deriving DecidableEq, Repr

/-- `MetaGraph.add`: insert if the name is free, else report `False` with no
mutation. -/
def MetaGraph.add (g : MetaGraph) (vertex : Vertex) : Bool × MetaGraph :=
  match g.vertices.lookup vertex.name with
  | some _ => (false, g)
  | none => (true, ⟨g.vertices ++ [(vertex.name, vertex)]⟩)

/-- `MetaGraph.get_vertex`: lookup by name, or linear scan by id for an `int`
key. -/
def MetaGraph.get_vertex (g : MetaGraph) (id : VKey) : Option Vertex :=
  match id with
  | .int i => (g.vertices.find? (fun p => p.2.id = i)).map Prod.snd
  | .str s => g.vertices.lookup s

/-- Replace the first dict entry matched by the key with `f` of it (the entry
`MetaGraph.get_vertex` resolves is the object Python mutates in place). -/
def updateVertex (l : List (String × Vertex)) (id : VKey) (f : Vertex → Vertex) :
    List (String × Vertex) :=
  match l with
  | [] => []
  | p :: rest =>
    match id with
    | .int i => if p.2.id = i then (p.1, f p.2) :: rest else p :: updateVertex rest id f
    | .str s => if p.1 = s then (p.1, f p.2) :: rest else p :: updateVertex rest id f

/-- `MetaGraph.join`: resolve both endpoints (returning `none` and leaving the
graph unchanged if either is absent), then append a new `Arc` to the start
vertex's arc list. -/
def MetaGraph.join (g : MetaGraph) (a b : VKey) (weight : Int := 1)
    (name : String := "") (anchor : Option Int := none) (guid : Option Int := none)
    (aid : Int := -1) : Option Arc × MetaGraph :=
  match g.get_vertex a with
  | none => (none, g)
  | some va =>
    match g.get_vertex b with
    | none => (none, g)
    | some vb =>
      let arc : Arc :=
        { id := aid, guid := guid, name := name, weight := weight,
          start := { id := va.id, name := va.name },
          endv := { id := vb.id, name := vb.name },
          anchor := anchor }
      (some arc, ⟨updateVertex g.vertices a (fun v => { v with arcs := v.arcs ++ [arc] })⟩)

/-- The arc purge `MetaGraph.remove` applies to each dict entry: entries whose
vertex shares the removed id are skipped (`continue`); from every other entry,
every arc whose start or end has the removed id is dropped. -/
def purgeEntry (vertex : Vertex) (p : String × Vertex) : String × Vertex :=
  if p.2.id = vertex.id then p
  else
    let kept := p.2.arcs.filter (fun a => ¬(a.endv.id = vertex.id ∨ a.start.id = vertex.id))
    (p.1, { p.2 with arcs := kept })

/-- `MetaGraph.remove`: purge, from every vertex whose id differs from the
removed vertex's, every arc whose start or end has the removed id; then
`del self.vertices[vertex.name]` (a `KeyError` if the name is absent; dict keys
are unique, so the delete is a filter on the key). -/
def MetaGraph.remove (g : MetaGraph) (vertex : Vertex) : Except PyError MetaGraph :=
  let purged := g.vertices.map (purgeEntry vertex)
  if (purged.lookup vertex.name).isSome then
    .ok ⟨purged.filter (fun p => ¬(p.1 = vertex.name))⟩
  else
    .error .keyError

/-- `MetaGraph.to_set`: the set of vertex ids. -/
def MetaGraph.to_set (g : MetaGraph) : Finset Int :=
  (g.vertices.map (fun p => p.2.id)).toFinset

/-- `MetaGraph.num_vertices`. -/
def MetaGraph.num_vertices (g : MetaGraph) : Nat :=
  g.vertices.length

/-- `MetaGraph.num_arcs`: total length of all arc lists. -/
def MetaGraph.num_arcs (g : MetaGraph) : Nat :=
  g.vertices.foldl (fun n p => n + p.2.arcs.length) 0

/-- `Conception`: a `MetaGraph` with a designated root.  `root` aliases one of
the container's vertex objects in Python; the embedding stores a snapshot (no
verified claim reads `root.arcs` after the container is further mutated). -/
structure Conception extends MetaGraph where
  root : Option Vertex := none
deriving DecidableEq, Repr

/-- `Conception.add` (inherited from `MetaGraph`). -/
def Conception.add (c : Conception) (vertex : Vertex) : Bool × Conception :=
  let (b, g) := c.toMetaGraph.add vertex
  (b, { c with toMetaGraph := g })

/-- `Conception.join` (inherited from `MetaGraph`). -/
def Conception.join (c : Conception) (a b : VKey) (weight : Int := 1)
    (name : String := "") (anchor : Option Int := none) (guid : Option Int := none)
    (aid : Int := -1) : Option Arc × Conception :=
  let (arc, g) := c.toMetaGraph.join a b weight name anchor guid aid
  (arc, { c with toMetaGraph := g })

/-- `Conception.to_set` (inherited). -/
def Conception.to_set (c : Conception) : Finset Int :=
  c.toMetaGraph.to_set

/-- `Conception.remove`: like `MetaGraph.remove`, but when the removed vertex
has the root's id the root is reset to the first remaining dict value (or
`None`). -/
def Conception.remove (c : Conception) (vertex : Vertex) : Except PyError Conception :=
  match c.root with
  | some r =>
    if vertex.id = r.id then
      match c.toMetaGraph.remove vertex with
      | .ok g => .ok { toMetaGraph := g, root := (g.vertices.head?).map Prod.snd }
      | .error e => .error e
    else
      match c.toMetaGraph.remove vertex with
      | .ok g => .ok { toMetaGraph := g, root := some r }
      | .error e => .error e
  | none =>
    match c.toMetaGraph.remove vertex with
    | .ok g => .ok { toMetaGraph := g, root := none }
    | .error e => .error e

/-- The `for v in remove_list` loop of `MetaGraph.filter` with a `Conception`
receiver (`self.remove` dispatches to `Conception.remove`). -/
def removeLoop : List Vertex → Conception → Except PyError Conception
  | [], c => .ok c
  | v :: rest, c =>
    match c.remove v with
    | .error e => .error e
    | .ok c => removeLoop rest c

/-- `MetaGraph.filter` with a `Conception` receiver: collect the vertices
whose id is not in the kept set, then remove each in turn. -/
def Conception.filter (c : Conception) (matchSet : Finset Int) : Except PyError Conception :=
  let removeList := (c.vertices.filter (fun p => p.2.id ∉ matchSet)).map Prod.snd
  removeLoop removeList c

/-- Reading `v.weight` on a vertex object: an `AttributeError` when the object
was built by `Concept.__init__` (which never sets `weight`). -/
def Vertex.getWeight (v : Vertex) : Except PyError Int :=
  match v.weight with
  | some w => .ok w
  | none => .error .attributeError

/-- `Conception.new_vertex` evaluates `Concept(name, id, weight, guid)`:
`Concept.__init__(self, v=None)` accepts a single record-like argument, so the
four-positional-argument call raises `TypeError` before any vertex is built. -/
def Conception.new_vertex (_id : Int) (_weight : Int) (_name : String)
    (_guid : Option Int) : Except PyError Vertex :=
  .error .typeError

/-- `MetaGraph.copy_to` with a `Conception` receiver (`self.new_vertex`
dispatches to `Conception.new_vertex`): the per-vertex step
`copy.add(self.new_vertex(v.id, v.weight, v.name, v.guid))`.  Python evaluates
the argument `v.weight` before the `new_vertex` call, so the weight read
happens (and can raise) first. -/
def cloneVertexStep (copy : Conception) (p : String × Vertex) : Except PyError Conception :=
  match p.2.getWeight with
  | .error e => .error e
  | .ok w =>
    match Conception.new_vertex p.2.id w p.2.name p.2.guid with
    | .error e => .error e
    | .ok nv => .ok (copy.add nv).2

/-- The `for v in self.vertices.values()` clone loop of `copy_to`: a raised
exception propagates out of the loop. -/
def cloneVerticesLoop : List (String × Vertex) → Conception → Except PyError Conception
  | [], copy => .ok copy
  | p :: rest, copy =>
    match cloneVertexStep copy p with
    | .error e => .error e
    | .ok copy => cloneVerticesLoop rest copy

/-- `MetaGraph.copy_to` with a `Conception` receiver: clone every vertex into
`copy` through `new_vertex`, then replay every arc by endpoint names. -/
def Conception.copy_to (self copy : Conception) : Except PyError Conception :=
  match cloneVerticesLoop self.vertices copy with
  | .error e => .error e
  | .ok copy =>
    .ok (self.vertices.foldl (fun (copy : Conception) p =>
      p.2.arcs.foldl (fun (copy : Conception) a =>
        (copy.join (.str a.start.name) (.str a.endv.name) a.weight a.name a.anchor
          a.guid a.id).2) copy) copy)

/-- `Conception.clone`: fresh empty conception; clone the root through
`new_vertex` and add it; `copy_to` the rest; replay the root's arcs. -/
def Conception.clone (self : Conception) : Except PyError Conception :=
  let copy : Conception := { vertices := [], root := none }
  let step1 : Except PyError Conception :=
    match self.root with
    | some v =>
      match v.getWeight with
      | .error e => .error e
      | .ok w =>
        match Conception.new_vertex v.id w v.name v.guid with
        | .error e => .error e
        | .ok r => .ok ({ copy with root := some r }.add r).2
    | none => .ok copy
  match step1 with
  | .error e => .error e
  | .ok copy =>
    match self.copy_to copy with
    | .error e => .error e
    | .ok copy =>
      match self.root with
      | some v =>
        .ok (v.arcs.foldl (fun (copy : Conception) a =>
          (copy.join (.str a.start.name) (.str a.endv.name) a.weight a.name a.anchor
            a.guid a.id).2) copy)
      | none => .ok copy

/-- `Conception.union_update`: `rhs.copy_to(self)`, returning the receiver. -/
def Conception.union_update (self rhs : Conception) : Except PyError Conception :=
  rhs.copy_to self

/-- `Conception.intersection_update`: filter to the intersection of the id
sets. -/
def Conception.intersection_update (self rhs : Conception) : Except PyError Conception :=
  let rhsset := rhs.to_set
  let lhsset := self.to_set
  let result := lhsset ∩ rhsset
  self.filter result

/-- `Conception.difference_update`. -/
def Conception.difference_update (self rhs : Conception) : Except PyError Conception :=
  let rhsset := rhs.to_set
  let lhsset := self.to_set
  let result := lhsset \ rhsset
  self.filter result

/-- `Conception.symmetric_difference_update`: merge `rhs` in, then filter to
the symmetric difference of the id sets. -/
def Conception.symmetric_difference_update (self rhs : Conception) :
    Except PyError Conception :=
  let rhsset := rhs.to_set
  let lhsset := self.to_set
  let result := symmDiff lhsset rhsset
  match rhs.copy_to self with
  | .error e => .error e
  | .ok self => self.filter result

/-- `Conception.union`: clone, then update the clone. -/
def Conception.union (self rhs : Conception) : Except PyError Conception :=
  match self.clone with
  | .error e => .error e
  | .ok c => c.union_update rhs

/-- `Conception.intersection`. -/
def Conception.intersection (self rhs : Conception) : Except PyError Conception :=
  match self.clone with
  | .error e => .error e
  | .ok c => c.intersection_update rhs

/-- `Conception.difference`. -/
def Conception.difference (self rhs : Conception) : Except PyError Conception :=
  match self.clone with
  | .error e => .error e
  | .ok c => c.difference_update rhs

/-- `Conception.symmetric_difference`. -/
def Conception.symmetric_difference (self rhs : Conception) : Except PyError Conception :=
  match self.clone with
  | .error e => .error e
  | .ok c => c.symmetric_difference_update rhs

/-! ### Helper lemmas about the dict (association list) operations -/

theorem lookup_cons_any (q : String × Vertex) (l : List (String × Vertex)) (k : String) :
    (q :: l).lookup k = if (k == q.1) = true then some q.2 else l.lookup k := by
  obtain ⟨a, b⟩ := q
  show (match k == a with | true => some b | false => l.lookup k) = _
  cases h : (k == a) <;> simp [h]

theorem lookup_append_last (l : List (String × Vertex)) (k : String) (v : Vertex)
    (h : l.lookup k = none) : (l ++ [(k, v)]).lookup k = some v := by
  induction l with
  | nil => simp [List.lookup]
  | cons p rest ih =>
    rw [List.cons_append, lookup_cons_any]
    rw [lookup_cons_any] at h
    cases hk : (k == p.1) with
    | true => rw [if_pos hk] at h; cases h
    | false => rw [if_neg (by simp [hk])] at h ⊢; exact ih h

theorem purgeEntry_fst (vertex : Vertex) (p : String × Vertex) :
    (purgeEntry vertex p).1 = p.1 := by
  unfold purgeEntry; split <;> rfl

theorem lookup_map_purge_isSome (vertex : Vertex) (l : List (String × Vertex)) (k : String) :
    ((l.map (purgeEntry vertex)).lookup k).isSome = (l.lookup k).isSome := by
  induction l with
  | nil => rfl
  | cons p rest ih =>
    rw [List.map_cons, lookup_cons_any, lookup_cons_any, purgeEntry_fst]
    cases hk : (k == p.1) with
    | true => simp [hk]
    | false => simp [hk, ih]

theorem lookup_filter_ne (l : List (String × Vertex)) (k : String) :
    (l.filter (fun p => ¬(p.1 = k))).lookup k = none := by
  induction l with
  | nil => rfl
  | cons p rest ih =>
    rw [List.filter_cons]
    by_cases hp : p.1 = k
    · rw [if_neg (by simp [hp])]
      exact ih
    · have hcond : (decide ¬(p.1 = k)) = true := by simp [hp]
      rw [if_pos hcond, lookup_cons_any]
      have hbeq : (k == p.1) = false := by
        simp only [beq_eq_false_iff_ne, ne_eq]
        exact fun h => hp h.symm
      rw [if_neg (by simp [hbeq])]
      exact ih

/-! ### C9 — duplicate-name-safe `add` -/

/-- C9: `add(v)` inserts and returns `True` exactly when no vertex with name
`v.name` is present; when the name is taken it returns `False` (a boolean
result, no exception in the signature) without mutating the graph, so adding
the same name twice leaves the vertex dict unchanged and the second call
reports failure. -/
theorem C9_add_duplicate_name_safe (g : MetaGraph) (v : Vertex) :
    ((g.add v).1 = true ↔ g.vertices.lookup v.name = none)
    ∧ ((g.add v).1 = false → (g.add v).2 = g)
    ∧ ((g.add v).1 = true → (g.add v).2.vertices = g.vertices ++ [(v.name, v)])
    ∧ (∀ w : Vertex, w.name = v.name → (g.add v).1 = true →
        (((g.add v).2).add w).1 = false ∧ (((g.add v).2).add w).2 = (g.add v).2) := by
  cases hl : g.vertices.lookup v.name with
  | some u => refine ⟨?_, ?_, ?_, ?_⟩ <;> simp [MetaGraph.add, hl]
  | none =>
    refine ⟨by simp [MetaGraph.add, hl], by simp [MetaGraph.add, hl],
      by simp [MetaGraph.add, hl], ?_⟩
    intro w hw _
    have hlk : (g.vertices ++ [(v.name, v)]).lookup w.name = some v := by
      rw [hw]; exact lookup_append_last _ _ _ hl
    simp [MetaGraph.add, hl, hlk]

def vW9 : Vertex :=
  { id := 1, guid := some 1, name := "x", weight := some 1, value := none,
    arcs := [], anchor := none }

/-- Witness for C9: adding `vW9` twice to the empty graph fails the second
time and leaves the graph of the first add unchanged. -/
theorem C9_add_duplicate_name_safe_witness :
    ((((⟨[]⟩ : MetaGraph).add vW9).2).add vW9).1 = false
    ∧ ((((⟨[]⟩ : MetaGraph).add vW9).2).add vW9).2 = ((⟨[]⟩ : MetaGraph).add vW9).2 :=
  (C9_add_duplicate_name_safe (⟨[]⟩ : MetaGraph) vW9).2.2.2 vW9 rfl (by decide)

/-! ### C7 — vertex removal and dangling arcs -/

def uC7 : Vertex :=
  { id := 1, guid := some 10, name := "u", weight := some 1, value := none,
    arcs := [], anchor := none }

def wC7 : Vertex :=
  { id := 1, guid := some 11, name := "w", weight := some 1, value := none,
    arcs := [], anchor := none }

/-- Two distinct vertices that share the id `1` (nothing in `add` forbids
this), with an arc `w → u` built through the public API. -/
def gC7 : MetaGraph :=
  ((((⟨[]⟩ : MetaGraph).add uC7).2.add wC7).2.join (.str "w") (.str "u")).2

/-- C7 counterexample: removing `u` from `gC7` succeeds but leaves, in the
remaining vertex `w`'s arc list, an arc whose start id and end id are both the
removed vertex's id `1` — `remove`'s purge loop skips every vertex sharing the
removed id, so the claim's universal "no arc referencing the removed vertex
(by id) remains" fails at this input. -/
theorem C7_counterexample :
    (gC7.remove uC7).map
      (fun g => g.vertices.map (fun p => (p.1, p.2.arcs.map (fun a => (a.start.id, a.endv.id)))))
    = .ok [("w", [(1, 1)])] := by rfl

/-- C7 (amended): if no *other* vertex in the container shares the removed
vertex's id, then `remove(v)` succeeds and afterwards no arc in any remaining
vertex's arc list has the removed vertex's id as its start or end id. -/
theorem C7_remove_purges_arcs (g : MetaGraph) (v : Vertex)
    (hin : g.vertices.lookup v.name = some v)
    (huniq : ∀ p ∈ g.vertices, p.2.id = v.id → p.1 = v.name) :
    ∃ g', g.remove v = .ok g' ∧ g'.vertices.lookup v.name = none ∧
      ∀ p ∈ g'.vertices, ∀ a ∈ p.2.arcs, a.start.id ≠ v.id ∧ a.endv.id ≠ v.id := by
  have hsome : ((g.vertices.map (purgeEntry v)).lookup v.name).isSome := by
    rw [lookup_map_purge_isSome, hin]; rfl
  refine ⟨⟨((g.vertices.map (purgeEntry v)).filter (fun p => ¬(p.1 = v.name)))⟩, ?_, ?_, ?_⟩
  · simp only [MetaGraph.remove]
    rw [if_pos hsome]
  · exact lookup_filter_ne _ _
  · intro p hp a ha
    rw [List.mem_filter] at hp
    obtain ⟨hpm, hpc⟩ := hp
    rw [List.mem_map] at hpm
    obtain ⟨q, hq, hpq⟩ := hpm
    by_cases hid : q.2.id = v.id
    · have h1 : p = q := by rw [← hpq]; unfold purgeEntry; rw [if_pos hid]
      have h2 : q.1 = v.name := huniq q hq hid
      rw [h1, h2] at hpc
      simp at hpc
    · have h1 : p.2.arcs = q.2.arcs.filter
          (fun a => ¬(a.endv.id = v.id ∨ a.start.id = v.id)) := by
        rw [← hpq]; unfold purgeEntry; rw [if_neg hid]
      rw [h1, List.mem_filter] at ha
      obtain ⟨_, hcond⟩ := ha
      have hprop : ¬(a.endv.id = v.id ∨ a.start.id = v.id) := by simpa using hcond
      push_neg at hprop
      exact ⟨hprop.2, hprop.1⟩

def vA7 : Vertex :=
  { id := 1, guid := some 1, name := "a", weight := some 1, value := none,
    arcs := [], anchor := none }

def vB7 : Vertex :=
  { id := 2, guid := some 2, name := "b", weight := some 1, value := none,
    arcs := [], anchor := none }

def gW7 : MetaGraph :=
  ((((⟨[]⟩ : MetaGraph).add vA7).2.add vB7).2.join (.str "b") (.str "a")).2

/-- Witness for C7 (amended) at a well-formed two-vertex graph with an arc
`b → a`. -/
theorem C7_remove_purges_arcs_witness :
    ∃ g', gW7.remove vA7 = .ok g' ∧ g'.vertices.lookup vA7.name = none ∧
      ∀ p ∈ g'.vertices, ∀ a ∈ p.2.arcs, a.start.id ≠ vA7.id ∧ a.endv.id ≠ vA7.id :=
  C7_remove_purges_arcs gW7 vA7 (by decide) (by decide)

/-! ### C10 — `Conception.new_vertex` is incompatible with `Concept.__init__` -/

theorem clone_error_of_root (c : Conception) (v : Vertex) (h : c.root = some v) :
    ∃ e, c.clone = .error e := by
  cases hw : v.weight with
  | none =>
    exact ⟨.attributeError, by simp only [Conception.clone, h, Vertex.getWeight, hw]⟩
  | some w =>
    exact ⟨.typeError,
      by simp only [Conception.clone, h, Vertex.getWeight, hw, Conception.new_vertex]⟩

theorem copy_to_error_of_ne_nil (c rhs : Conception) (h : c.vertices ≠ []) :
    ∃ e, c.copy_to rhs = .error e := by
  cases hl : c.vertices with
  | nil => exact absurd hl h
  | cons p rest =>
    cases hw : p.2.weight with
    | none =>
      exact ⟨.attributeError, by
        simp only [Conception.copy_to, hl, cloneVerticesLoop, cloneVertexStep,
          Vertex.getWeight, hw]⟩
    | some w =>
      exact ⟨.typeError, by
        simp only [Conception.copy_to, hl, cloneVerticesLoop, cloneVertexStep,
          Vertex.getWeight, hw, Conception.new_vertex]⟩

theorem clone_error_of_nonempty (c : Conception)
    (h : c.root ≠ none ∨ c.vertices ≠ []) : ∃ e, c.clone = .error e := by
  cases hr : c.root with
  | some v => exact clone_error_of_root c v hr
  | none =>
    have hv : c.vertices ≠ [] := by
      rcases h with h | h
      · exact absurd hr h
      · exact h
    obtain ⟨e, he⟩ := copy_to_error_of_ne_nil c { vertices := [], root := none } hv
    refine ⟨e, ?_⟩
    simp only [Conception.clone, hr, he]

theorem clone_empty_ok (c : Conception) (hr : c.root = none) (hv : c.vertices = []) :
    c.clone = .ok { vertices := [], root := none } := by
  cases c with
  | mk mg rt =>
    cases mg with
    | mk verts =>
      have hv' : verts = [] := hv
      have hr' : rt = none := hr
      subst hv'; subst hr'
      rfl

/-- C10 (implicit): `Conception.new_vertex` calls `Concept(name, id, weight,
guid)` with four positional arguments while `Concept.__init__` accepts a single
record-like argument, so every operation that reaches `new_vertex` — `clone`,
hence the four non-mutating set operations, and `copy_to` from a `Conception`
source — raises rather than succeeding; only the empty conception (no root, no
vertices) clones without error.  When the root carries a `weight` attribute the
raised error is exactly the `TypeError` from the mismatched constructor call. -/
theorem C10_new_vertex_type_error (c rhs : Conception) :
    (c.root = none → c.vertices = [] → c.clone = .ok { vertices := [], root := none })
    ∧ ((c.root ≠ none ∨ c.vertices ≠ []) → ∃ e, c.clone = .error e)
    ∧ ((c.root ≠ none ∨ c.vertices ≠ []) →
        (∃ e, c.union rhs = .error e) ∧ (∃ e, c.intersection rhs = .error e)
        ∧ (∃ e, c.difference rhs = .error e)
        ∧ (∃ e, c.symmetric_difference rhs = .error e))
    ∧ (c.vertices ≠ [] → ∃ e, c.copy_to rhs = .error e)
    ∧ (∀ v w, c.root = some v → v.weight = some w → c.clone = .error .typeError) := by
  refine ⟨clone_empty_ok c, clone_error_of_nonempty c, ?_, copy_to_error_of_ne_nil c rhs, ?_⟩
  · intro h
    obtain ⟨e, he⟩ := clone_error_of_nonempty c h
    exact ⟨⟨e, by simp only [Conception.union, he]⟩,
      ⟨e, by simp only [Conception.intersection, he]⟩,
      ⟨e, by simp only [Conception.difference, he]⟩,
      ⟨e, by simp only [Conception.symmetric_difference, he]⟩⟩
  · intro v w hr hw
    simp only [Conception.clone, hr, Vertex.getWeight, hw, Conception.new_vertex]

def cEmpty : Conception := { vertices := [], root := none }

def cW10 : Conception := { vertices := [("x", vW9)], root := some vW9 }

/-- Witness for C10: the one-vertex rooted conception `cW10` cannot be cloned
(the error is the constructor `TypeError`), its `union` with the empty
conception errors, and the empty conception clones successfully. -/
theorem C10_new_vertex_type_error_witness :
    cW10.clone = .error .typeError
    ∧ (∃ e, cW10.union cEmpty = .error e)
    ∧ cEmpty.clone = .ok { vertices := [], root := none } :=
  ⟨(C10_new_vertex_type_error cW10 cEmpty).2.2.2.2 vW9 1 rfl rfl,
   ((C10_new_vertex_type_error cW10 cEmpty).2.2.1 (Or.inl (by simp [cW10]))).1,
   (C10_new_vertex_type_error cEmpty cEmpty).1 rfl rfl⟩

/-! ### C1 / C6 — the set-algebra operations raise on any non-empty operand -/

def concA1 : Conception := (cEmpty.add vW9).2

/-- C1: evaluating the code at the failing input — `A` a conception holding
the single (API-added, weight-bearing) vertex `vW9` and `B` empty —
`A.union(B)` raises the `TypeError` from `Conception.new_vertex` inside
`clone` instead of producing a conception whose id set is the union. -/
theorem C1_union_raises_type_error : concA1.union cEmpty = .error .typeError := by rfl

def vC6 : Vertex :=
  { id := 3, guid := some 6, name := "c", weight := none, value := some 1,
    arcs := [], anchor := none }

def concC6 : Conception := { vertices := [("c", vC6)], root := some vC6 }

/-- C6: evaluating the code at the failing input — a rooted conception whose
vertex was built by `Concept.__init__` (so it has no `weight` attribute) —
`symmetric_difference` raises (here the `AttributeError` from reading
`v.weight`) instead of operating on a clone and leaving the operands
unmodified. -/
theorem C6_symmetric_difference_raises :
    concC6.symmetric_difference cEmpty = .error .attributeError := by rfl

/-! ### Persistence adapter (spec-modelled) and the Knowledge store

The adapter classes (`core.utilities.GraphDatabase`, reached through
`MetaGraphDatabase`) are code of this repository that is not under `src/`;
only their callers are.  Their operations are therefore modelled from the
spec (sections 4.3 and 6) and each carries a `Modelled from the spec` note. -/

/-- Modelled from the spec: a vertex row of the backing store (§6: `vertices`
table with `id`, `name`, `value`/weight, `guid`), scoped to one `graph_id`. -/
structure DBVertex where
  id : Int
  name : String
  value : Int
  guid : Int
deriving DecidableEq, Repr

/-- Modelled from the spec: an arc row (§6: `arcs` table with `id`, `name`,
`weight`, `guid`, `start`, `end`, `anchor`); `anchor = 0` encodes "no anchor",
as `Knowledge.__create_node` tests `if v == 0`. -/
structure DBArc where
  id : Int
  name : String
  weight : Int
  guid : Int
  start : Int
  endv : Int
  anchor : Int
deriving DecidableEq, Repr

/-- Modelled from the spec: the backing store scoped to one `graph_id`;
`nextId` supplies fresh row ids/guids. -/
structure Store where
  vertices : List DBVertex
  arcs : List DBArc
  nextId : Int
deriving DecidableEq, Repr

/-- Modelled from the spec: `get_vertex_by_name(name, auto_add=False)` —
the existing row or `None`. -/
def Store.get_vertex_by_name (s : Store) (name : String) : Option DBVertex :=
  s.vertices.find? (fun v => v.name = name)

/-- Modelled from the spec: `add_vertex(name, id)` inserts a fresh row with the
given (content-addressed) id and the default weight/value. -/
def Store.add_vertex (s : Store) (name : String) (id : Int) : DBVertex × Store :=
  let v : DBVertex := { id := id, name := name, value := 1, guid := s.nextId }
  (v, { s with vertices := s.vertices ++ [v], nextId := s.nextId + 1 })

/-- Modelled from the spec: `get_vertex(id)`. -/
def Store.get_vertex (s : Store) (id : Int) : Option DBVertex :=
  s.vertices.find? (fun v => v.id = id)

/-- Modelled from the spec: `get_arc(id)`. -/
def Store.get_arc (s : Store) (id : Int) : Option DBArc :=
  s.arcs.find? (fun a => a.id = id)

/-- Modelled from the spec: `get_arcs_for_vertex(id)` — the ids of all
*outgoing* arcs of the vertex. -/
def Store.get_arcs_for_vertex (s : Store) (id : Int) : List Int :=
  (s.arcs.filter (fun a => a.start = id)).map (fun a => a.id)

/-- Modelled from the spec: the adapter's `join` as `Language.link` invokes it
(`join(a_node.id, b_node.id, relation.value, None, ln_name)`): creates exactly
one arc row from `start` to `endv` labeled `name`, the relation value in the
weight column, and the no-anchor sentinel `0` (the `None` argument and column
defaults collapse to this row). -/
def Store.join (s : Store) (start endv : Int) (weight : Int) (name : String) :
    DBArc × Store :=
  let a : DBArc := { id := s.nextId, name := name, weight := weight,
                     guid := s.nextId, start := start, endv := endv, anchor := 0 }
  (a, { s with arcs := s.arcs ++ [a], nextId := s.nextId + 1 })

/-- Modelled from the spec: `edge['anchor'] = value` — property assignment on
the arc row with the edge's id. -/
def Store.set_arc_anchor (s : Store) (arcId : Int) (anchorId : Int) : Store :=
  { s with arcs := s.arcs.map (fun a =>
      if a.id = arcId then { a with anchor := anchorId } else a) }

/-- `Concept.to_id`: the source truncates a SHA-256 digest of the UTF-8
encoding of the name to a 4-byte integer.  The digest is a Python library call
(`hashlib`), external to the repository; the embedding models it as a plain
deterministic hash of the characters reduced mod 2^32, which preserves the
property the callers rely on (same name always yields the same id, with no
shared state). -/
def Concept.to_id (name : String) : Int :=
  Int.ofNat (name.data.foldl (fun h c => (h * 131 + c.toNat) % 4294967296) 7)

/-- `Concept.__init__(v)` (used as `Concept.clone(v)`) for a store row `v`:
copies id, name, guid and value, starts with no arcs and no anchor — and,
notably, never sets a `weight` attribute. -/
def Concept.clone (v : DBVertex) : Vertex :=
  { id := v.id, guid := some v.guid, name := v.name, weight := none,
    value := some v.value, arcs := [], anchor := none }

/-- `Knowledge.__getitem__`: resolve by name; on a miss, create the vertex with
its content-addressed id (auto-add). -/
def Knowledge.getitem (s : Store) (name : String) : DBVertex × Store :=
  match s.get_vertex_by_name name with
  | some v => (v, s)
  | none => s.add_vertex name (Concept.to_id name)

/-- The `links` dict of `Knowledge.load`: arc-id lists keyed by origin vertex
id, in insertion order. -/
abbrev Links := List (Int × List Int)

/-- `links[key] = arcs`: Python dict assignment (replace in place, or append a
new key). -/
def linksStore (links : Links) (key : Int) (arcs : List Int) : Links :=
  match links with
  | [] => [(key, arcs)]
  | p :: rest => if p.1 = key then (key, arcs) :: rest else p :: linksStore rest key arcs

/-- `Knowledge.__create_node` applied to one raw id within the arc loop,
threading the loop state: `0` stands for "no vertex" and is skipped;
a dangling id makes the recursive clone fail (`Concept.clone(None)` is an
`AttributeError` in Python).  The recursion into `__traverse_subgraph` at
`depth - 1` is passed in as `rec`. -/
def createNode (rec : Conception → DBVertex → Links →
      Except PyError (Vertex × Conception × Links))
    (s : Store) (st : Except PyError (Conception × Links)) (vid : Int) :
    Except PyError (Conception × Links) :=
  match st with
  | .error e => .error e
  | .ok (concept, links) =>
    if vid = 0 then .ok (concept, links)
    else
      match s.get_vertex vid with
      | none => .error .attributeError
      | some w =>
        match rec concept w links with
        | .error e => .error e
        | .ok (_, concept, links) => .ok (concept, links)

/-- One iteration of the `for aid in arcs` loop of `__traverse_subgraph`:
fetch the arc and create its anchor, start and end nodes in that order. -/
def arcStep (rec : Conception → DBVertex → Links →
      Except PyError (Vertex × Conception × Links))
    (s : Store) (st : Except PyError (Conception × Links)) (aid : Int) :
    Except PyError (Conception × Links) :=
  match st with
  | .error e => .error e
  | .ok (concept, links) =>
    match s.get_arc aid with
    | none => .error .typeError
    | some a =>
      createNode rec s
        (createNode rec s (createNode rec s (.ok (concept, links)) a.anchor) a.start)
        a.endv

/-- `Knowledge.__traverse_subgraph`: clone the store vertex; return the clone
immediately below depth 0; return it without descending when the conception
already holds the name (`add` fails — this is what bounds work on cycles);
otherwise record the outgoing arc ids under the vertex id and walk each arc's
anchor / start / end at `depth - 1`.  The extra `fuel` argument only bounds the
recursion nesting so Lean accepts the definition; `traverse_no_fuel_error`
shows any `fuel` of at least `depth + 2` never exhausts. -/
def traverse_subgraph (s : Store) : Nat → Conception → DBVertex → Int → Links →
    Except PyError (Vertex × Conception × Links)
  | 0, _, _, _, _ => .error .outOfFuel
  | fuel + 1, concept, v, depth, links =>
    let c := Concept.clone v
    if depth < 0 then .ok (c, concept, links)
    else
      match concept.add c with
      | (false, concept) => .ok (c, concept, links)
      | (true, concept) =>
        let arcs := s.get_arcs_for_vertex v.id
        let links := linksStore links v.id arcs
        match arcs.foldl
            (arcStep (fun concept w links =>
              traverse_subgraph s fuel concept w (depth - 1) links) s)
            (.ok (concept, links)) with
        | .error e => .error e
        | .ok (concept, links) => .ok (c, concept, links)

/-- `Knowledge.__link_nodes`: replay, for every recorded origin vertex id, each
recorded arc by id-resolved `join` (the arc's raw anchor value and its row id
land in the in-memory arc's `anchor` and `guid` slots — the source passes them
positionally).  `linkArcStep` is one iteration of the inner `for aid in arcs`
loop. -/
def linkArcStep (s : Store) (start : Int) (st : Except PyError Conception)
    (aid : Int) : Except PyError Conception :=
  match st with
  | .error e => .error e
  | .ok concept =>
    match s.get_arc aid with
    | none => .error .typeError
    | some a =>
      .ok (concept.join (.int start) (.int a.endv) a.weight a.name
        (some a.anchor) (some a.id) (-1)).2

/-- `Knowledge.__link_nodes`: the outer loop over the recorded origin ids. -/
def link_nodes (s : Store) (concept : Conception) (links : Links) :
    Except PyError Conception :=
  links.foldl (fun st p =>
    match st with
    | .error e => .error e
    | .ok concept => p.2.foldl (linkArcStep s p.1) (.ok concept))
    (.ok concept)

/-- `Knowledge.load`: resolve (auto-adding!) the root, traverse the subgraph,
set the conception's root to the traversal's clone, then replay the recorded
arcs.  The `if v is None: raise ValueError` guard of the source is unreachable
because `__getitem__` always returns a vertex. -/
def Knowledge.load (s : Store) (fuel : Nat) (concept : Conception) (name : String)
    (depth : Int) : Except PyError (Conception × Store) :=
  let (v, s) := Knowledge.getitem s name
  match traverse_subgraph s fuel concept v depth [] with
  | .error e => .error e
  | .ok (c, concept, links) =>
    let concept := { concept with root := some c }
    match link_nodes s concept links with
    | .error e => .error e
    | .ok concept => .ok (concept, s)

/-- `Knowledge.slice`: load a fresh conception from the named root. -/
def Knowledge.slice (s : Store) (fuel : Nat) (name : String) (depth : Int) :
    Except PyError (Conception × Store) :=
  Knowledge.load s fuel { vertices := [], root := none } name depth

/-! ### Fuel adequacy: the nesting budget never runs out when it covers the
depth bound, so every slice terminates (the depth bound, not a timeout, is
what stops the recursion — also on cyclic stores). -/

def noFuelErr {α : Type} (r : Except PyError α) : Prop := r ≠ .error .outOfFuel

theorem createNode_noFuelErr (rec : Conception → DBVertex → Links →
      Except PyError (Vertex × Conception × Links))
    (s : Store) (st : Except PyError (Conception × Links)) (vid : Int)
    (hrec : ∀ c w l, noFuelErr (rec c w l)) (hst : noFuelErr st) :
    noFuelErr (createNode rec s st vid) := by
  cases st with
  | error e => simpa [createNode] using hst
  | ok pr =>
    obtain ⟨concept, links⟩ := pr
    by_cases h0 : vid = 0
    · simp [createNode, h0, noFuelErr]
    · cases hv : s.get_vertex vid with
      | none => simp [createNode, h0, hv, noFuelErr]
      | some w =>
        cases hr : rec concept w links with
        | error e =>
          have he := hrec concept w links
          rw [hr] at he
          simp only [noFuelErr] at he ⊢
          simp [createNode, h0, hv, hr]
          intro hh
          exact he (by rw [hh])
        | ok r =>
          obtain ⟨c1, c2, l2⟩ := r
          simp [createNode, h0, hv, hr, noFuelErr]

theorem arcStep_noFuelErr (rec : Conception → DBVertex → Links →
      Except PyError (Vertex × Conception × Links))
    (s : Store) (st : Except PyError (Conception × Links)) (aid : Int)
    (hrec : ∀ c w l, noFuelErr (rec c w l)) (hst : noFuelErr st) :
    noFuelErr (arcStep rec s st aid) := by
  cases st with
  | error e => simpa [arcStep] using hst
  | ok pr =>
    obtain ⟨concept, links⟩ := pr
    cases ha : s.get_arc aid with
    | none => simp [arcStep, ha, noFuelErr]
    | some a =>
      simp only [arcStep, ha]
      exact createNode_noFuelErr rec s _ _ hrec
        (createNode_noFuelErr rec s _ _ hrec
          (createNode_noFuelErr rec s _ _ hrec (by simp [noFuelErr])))

theorem foldl_arcStep_noFuelErr (rec : Conception → DBVertex → Links →
      Except PyError (Vertex × Conception × Links)) (s : Store)
    (hrec : ∀ c w l, noFuelErr (rec c w l)) :
    ∀ (l : List Int) (st : Except PyError (Conception × Links)), noFuelErr st →
      noFuelErr (l.foldl (arcStep rec s) st) := by
  intro l
  induction l with
  | nil => intro st h; simpa using h
  | cons aid rest ih =>
    intro st h
    rw [List.foldl_cons]
    exact ih _ (arcStep_noFuelErr rec s st aid hrec h)

theorem traverse_noFuelErr :
    ∀ (fuel : Nat) (s : Store) (concept : Conception) (v : DBVertex) (depth : Int)
      (links : Links), 1 ≤ fuel → (depth + 2).toNat ≤ fuel →
      noFuelErr (traverse_subgraph s fuel concept v depth links) := by
  intro fuel
  induction fuel with
  | zero => intro s concept v depth links h1 _; omega
  | succ fuel ih =>
    intro s concept v depth links _ h2
    simp only [traverse_subgraph]
    by_cases hd : depth < 0
    · simp [hd, noFuelErr]
    · rw [if_neg hd]
      have hd0 : 0 ≤ depth := not_lt.mp hd
      have hrec : ∀ c w l,
          noFuelErr (traverse_subgraph s fuel c w (depth - 1) l) := by
        intro c w l
        exact ih s c w (depth - 1) l (by omega) (by omega)
      split
      · simp [noFuelErr]
      · next concept2 heq =>
          split
          · next e hres =>
              have hfold := foldl_arcStep_noFuelErr _ s hrec
                (s.get_arcs_for_vertex v.id)
                (.ok (concept2, linksStore links v.id (s.get_arcs_for_vertex v.id)))
                (by simp [noFuelErr])
              rw [hres] at hfold
              simp only [noFuelErr] at hfold ⊢
              intro hh
              exact hfold (by rw [show e = PyError.outOfFuel from by injection hh])
          · simp [noFuelErr]

theorem linkArcStep_noFuelErr (s : Store) (start : Int)
    (st : Except PyError Conception) (aid : Int) (hst : noFuelErr st) :
    noFuelErr (linkArcStep s start st aid) := by
  cases st with
  | error e => simpa [linkArcStep] using hst
  | ok concept =>
    cases ha : s.get_arc aid with
    | none => simp [linkArcStep, ha, noFuelErr]
    | some a => simp [linkArcStep, ha, noFuelErr]

theorem foldl_linkArcStep_noFuelErr (s : Store) (start : Int) :
    ∀ (l : List Int) (st : Except PyError Conception), noFuelErr st →
      noFuelErr (l.foldl (linkArcStep s start) st) := by
  intro l
  induction l with
  | nil => intro st h; simpa using h
  | cons aid rest ih =>
    intro st h
    rw [List.foldl_cons]
    exact ih _ (linkArcStep_noFuelErr s start st aid h)

theorem link_nodes_noFuelErr (s : Store) (concept : Conception) (links : Links) :
    noFuelErr (link_nodes s concept links) := by
  unfold link_nodes
  suffices h : ∀ (ls : Links) (st : Except PyError Conception), noFuelErr st →
      noFuelErr (ls.foldl (fun st p =>
        match st with
        | .error e => .error e
        | .ok concept => p.2.foldl (linkArcStep s p.1) (.ok concept)) st) by
    exact h links (.ok concept) (by simp [noFuelErr])
  intro ls
  induction ls with
  | nil => intro st h; simpa using h
  | cons p rest ih =>
    intro st h
    rw [List.foldl_cons]
    apply ih
    cases st with
    | error e => simpa using h
    | ok c => exact foldl_linkArcStep_noFuelErr s p.1 p.2 (.ok c) (by simp [noFuelErr])

theorem slice_noFuelErr (s : Store) (name : String) (depth : Int) (fuel : Nat)
    (h1 : 1 ≤ fuel) (h2 : (depth + 2).toNat ≤ fuel) :
    noFuelErr (Knowledge.slice s fuel name depth) := by
  simp only [Knowledge.slice, Knowledge.load]
  split
  · next e hres =>
      have ht := traverse_noFuelErr fuel (Knowledge.getitem s name).2
        { vertices := [], root := none } (Knowledge.getitem s name).1 depth [] h1 h2
      rw [hres] at ht
      simp only [noFuelErr] at ht ⊢
      intro hh
      exact ht (by rw [show e = PyError.outOfFuel from by injection hh])
  · next c concept2 links hres =>
      split
      · next e2 hres2 =>
          have hl := link_nodes_noFuelErr (Knowledge.getitem s name).2
            { concept2 with root := some c } links
          rw [hres2] at hl
          simp only [noFuelErr] at hl ⊢
          intro hh
          exact hl (by rw [show e2 = PyError.outOfFuel from by injection hh])
      · simp [noFuelErr]

/-! ### C4 / C5 — the slice scenarios of the spec -/

/-- The spec's example store: vertices `{A,B,C,D}` with arcs `A→B`, `B→D`,
`B→C`, `C→D`. -/
def storeC4 : Store :=
  { vertices := [ { id := 1, name := "A", value := 1, guid := 11 },
                  { id := 2, name := "B", value := 1, guid := 12 },
                  { id := 3, name := "C", value := 1, guid := 13 },
                  { id := 4, name := "D", value := 1, guid := 14 } ],
    arcs := [ { id := 101, name := "", weight := 1, guid := 21, start := 1, endv := 2, anchor := 0 },
              { id := 102, name := "", weight := 1, guid := 22, start := 2, endv := 4, anchor := 0 },
              { id := 103, name := "", weight := 1, guid := 23, start := 2, endv := 3, anchor := 0 },
              { id := 104, name := "", weight := 1, guid := 24, start := 3, endv := 4, anchor := 0 } ],
    nextId := 300 }

/-- C4 counterexample: on the spec's example store, `slice('A', depth=2)`
returns all four vertices (ids 1,2,4,3 — `D` once) but **4** arcs, not the
claimed 3: vertex `C` is admitted at the depth boundary with its outgoing arc
list recorded, so `C→D` is replayed along with `A→B`, `B→D`, `B→C`. -/
theorem C4_counterexample :
    (Knowledge.slice storeC4 10 "A" 2).toOption.map
      (fun r => (r.1.vertices.map (fun p => p.2.id), r.1.toMetaGraph.num_arcs))
    = some ([1, 2, 4, 3], 4) := by rfl

/-- C4 (amended): `slice('A', depth=2)` on the spec's example store returns a
conception whose vertex-id set is `{1,2,3,4}` (that is, `{A,B,C,D}`, with `D`
present exactly once even though two paths reach it) and which contains
exactly 4 arcs: `A→B`, `B→D`, `B→C` and `C→D`. -/
theorem C4_slice_example :
    (Knowledge.slice storeC4 10 "A" 2).toOption.map
      (fun r => (r.1.to_set,
        r.1.vertices.map (fun p => (p.1, p.2.arcs.map (fun a => (a.start.id, a.endv.id)))),
        r.1.toMetaGraph.num_arcs))
    = some ({1, 2, 3, 4},
        [("A", [(1, 2)]), ("B", [(2, 4), (2, 3)]), ("D", []), ("C", [(3, 4)])], 4) := by
  have h : ({1, 2, 4, 3} : Finset Int) = {1, 2, 3, 4} := by
    ext x
    simp only [Finset.mem_insert, Finset.mem_singleton]
    tauto
  rw [← h]
  rfl

/-- The cyclic store of the spec's cycle-safety property: `A→B` and `B→A`. -/
def storeC5 : Store :=
  { vertices := [ { id := 1, name := "A", value := 1, guid := 11 },
                  { id := 2, name := "B", value := 1, guid := 12 } ],
    arcs := [ { id := 201, name := "", weight := 1, guid := 21, start := 1, endv := 2, anchor := 0 },
              { id := 202, name := "", weight := 1, guid := 22, start := 2, endv := 1, anchor := 0 } ],
    nextId := 300 }

/-- C5: slicing is cycle-safe.  (1) Any slice whose nesting budget covers the
depth bound finishes without exhausting it — on every store, cyclic or not, it
is the depth bound that stops the recursion.  (2) A vertex whose name is
already in the conception is never re-added or descended into:
`__traverse_subgraph` returns at the failed `add` with the conception and the
recorded links unchanged — this is what bounds the work on cycles.  (3) On the
cyclic store `A→B→A`, `slice('A', depth=5)` yields exactly the two reachable
vertices (each once) and both arcs. -/
theorem C5_slice_cycle_safe :
    (∀ (s : Store) (name : String) (depth : Int) (fuel : Nat),
        1 ≤ fuel → (depth + 2).toNat ≤ fuel →
        Knowledge.slice s fuel name depth ≠ .error .outOfFuel)
    ∧ (∀ (s : Store) (fuel : Nat) (concept : Conception) (v : DBVertex)
        (depth : Int) (links : Links),
        concept.vertices.lookup v.name ≠ none →
        traverse_subgraph s (fuel + 1) concept v depth links
          = .ok (Concept.clone v, concept, links))
    ∧ (Knowledge.slice storeC5 12 "A" 5).toOption.map
        (fun r => (r.1.to_set,
          r.1.vertices.map (fun p => (p.1, p.2.arcs.map (fun a => (a.start.id, a.endv.id))))))
      = some ({1, 2}, [("A", [(1, 2)]), ("B", [(2, 1)])]) := by
  refine ⟨fun s name depth fuel h1 h2 => slice_noFuelErr s name depth fuel h1 h2, ?_, by rfl⟩
  intro s fuel concept v depth links hlk
  obtain ⟨u, hu⟩ : ∃ u, concept.vertices.lookup v.name = some u := by
    cases h : concept.vertices.lookup v.name with
    | none => exact absurd h hlk
    | some u => exact ⟨u, rfl⟩
  simp only [traverse_subgraph]
  by_cases hd : depth < 0
  · rw [if_pos hd]
  · rw [if_neg hd]
    have hadd : Conception.add concept (Concept.clone v) = (false, concept) := by
      simp [Conception.add, MetaGraph.add, Concept.clone, hu]
    rw [hadd]

def dbW5 : DBVertex := { id := 9, name := "x", value := 1, guid := 9 }

/-- Witness for C5: a bounded slice of the cyclic store completes, and a
traversal hitting the already-present name `"x"` returns without touching the
conception. -/
theorem C5_slice_cycle_safe_witness :
    Knowledge.slice storeC5 12 "A" 5 ≠ .error .outOfFuel
    ∧ traverse_subgraph storeC5 3 concA1 dbW5 5 [] = .ok (Concept.clone dbW5, concA1, []) :=
  ⟨C5_slice_cycle_safe.1 storeC5 "A" 5 12 (by decide) (by decide),
   C5_slice_cycle_safe.2.1 storeC5 2 concA1 dbW5 5 [] (by decide)⟩

/-! ### C2 — slice root resolution silently auto-creates missing roots -/

def storeC2empty : Store := { vertices := [], arcs := [], nextId := 100 }

/-- C2 counterexample: on a store with no vertices at all, `slice("X", 1)`
does *not* fail with a not-found error — it succeeds, returns a conception
containing a vertex named `"X"`, and has silently created that vertex (with
its content-addressed id) in the backing store: `Knowledge.__getitem__` calls
`add_vertex` on a miss, so `load`'s `if v is None: raise ValueError` branch is
unreachable. -/
theorem C2_counterexample :
    (Knowledge.slice storeC2empty 5 "X" 1).toOption.map
      (fun r => (r.1.vertices.map Prod.fst, r.2.vertices.map (fun v => (v.name, v.id))))
    = some (["X"], [("X", Concept.to_id "X")]) := by rfl

/-- C2 (amended): for every store in which the root name does not resolve,
`Knowledge.__getitem__` never reports a miss — it silently creates the vertex
with its content-addressed id in the backing store (so `load`'s
`if v is None: raise ValueError` branch is unreachable for root resolution);
and when, additionally, no arc row of the store starts at that id and the
depth is non-negative, the whole `slice(name, depth)` succeeds, returning a
conception rooted at the auto-created vertex, with the backing store gaining
exactly that vertex row. -/
theorem C2_slice_missing_root_autoadds (s : Store) (name : String) (depth : Int)
    (fuel : Nat) (h1 : s.get_vertex_by_name name = none)
    (h2 : ∀ a ∈ s.arcs, a.start ≠ Concept.to_id name)
    (hd : 0 ≤ depth) (hf : 1 ≤ fuel) :
    Knowledge.getitem s name
      = ({ id := Concept.to_id name, name := name, value := 1, guid := s.nextId },
         { s with
           vertices := s.vertices ++
             [{ id := Concept.to_id name, name := name, value := 1, guid := s.nextId }],
           nextId := s.nextId + 1 }) ∧
    Knowledge.slice s fuel name depth
      = .ok
        ({ vertices := [(name,
            { id := Concept.to_id name, guid := some s.nextId, name := name,
              weight := none, value := some 1, arcs := [], anchor := none })],
           root := some
            { id := Concept.to_id name, guid := some s.nextId, name := name,
              weight := none, value := some 1, arcs := [], anchor := none } },
         { s with
           vertices := s.vertices ++
             [{ id := Concept.to_id name, name := name, value := 1, guid := s.nextId }],
           nextId := s.nextId + 1 }) := by
  obtain ⟨f, rfl⟩ : ∃ f, fuel = f + 1 := ⟨fuel - 1, by omega⟩
  have hd' : ¬(depth < 0) := not_lt.mpr hd
  have h2' : s.arcs.filter (fun a => a.start = Concept.to_id name) = [] := by
    rw [List.filter_eq_nil]
    intro a ha
    simpa using h2 a ha
  constructor
  · simp [Knowledge.getitem, h1, Store.add_vertex]
  · simp [Knowledge.slice, Knowledge.load, Knowledge.getitem, h1,
      Store.add_vertex, traverse_subgraph, hd', Conception.add,
      MetaGraph.add, Concept.clone, Store.get_arcs_for_vertex, h2', linksStore,
      link_nodes, linkArcStep, List.find?, List.lookup]

/-- Witness for C2 (amended) at the empty store, the concrete name `"Y"` and
depth `0`. -/
theorem C2_slice_missing_root_autoadds_witness :
    Knowledge.slice storeC2empty 1 "Y" 0
      = .ok
        ({ vertices := [("Y",
            { id := Concept.to_id "Y", guid := some 100, name := "Y",
              weight := none, value := some 1, arcs := [], anchor := none })],
           root := some
            { id := Concept.to_id "Y", guid := some 100, name := "Y",
              weight := none, value := some 1, arcs := [], anchor := none } },
         { vertices := [{ id := Concept.to_id "Y", name := "Y", value := 1, guid := 100 }],
           arcs := [], nextId := 101 }) := by
  have h := (C2_slice_missing_root_autoadds storeC2empty "Y" 0 1 rfl
    (by intro a ha; simp [storeC2empty] at ha) (by decide) (by decide)).2
  simpa [storeC2empty] using h

/-! ### C8 — `HAS` stores a ternary fact as one anchored arc -/

/-- The `Atomic` relation enum of `Language.py`. -/
inductive Atomic where
  | OF | HAS | IS_A | IN | FROM | TO | RELATES | CONTAINS | IS
deriving DecidableEq, Repr

/-- The enum member's numeric value. -/
def Atomic.value : Atomic → Int
  | .OF => 1 | .HAS => 2 | .IS_A => 3 | .IN => 4 | .FROM => 5
  | .TO => 6 | .RELATES => 7 | .CONTAINS => 8 | .IS => 9

/-- The enum member's name (`relation.name` in the source). -/
def Atomic.rname : Atomic → String
  | .OF => "OF" | .HAS => "HAS" | .IS_A => "IS_A" | .IN => "IN" | .FROM => "FROM"
  | .TO => "TO" | .RELATES => "RELATES" | .CONTAINS => "CONTAINS" | .IS => "IS"

/-- `Language.get_node`: resolve by name, creating the vertex with its
content-addressed id on a miss (the same auto-add shape as
`Knowledge.__getitem__`). -/
def Language.get_node (s : Store) (name : String) : DBVertex × Store :=
  match s.get_vertex_by_name name with
  | some v => (v, s)
  | none => s.add_vertex name (Concept.to_id name)

/-- `Language.link`: resolve/create both endpoints, compose the label
(`f'{relation.name}.{metadata}'` when metadata is present), create one arc
through the adapter, and, when metadata is present, resolve/create the
metadata node and store its id in the arc's `anchor` property. -/
def Language.link (s : Store) (a b : String) (relation : Atomic)
    (metadata : Option String) : DBArc × Store :=
  let as1 := Language.get_node s a
  let a_node := as1.1
  let s1 := as1.2
  let bs1 := Language.get_node s1 b
  let b_node := bs1.1
  let s2 := bs1.2
  let ln_name := match metadata with
    | none => relation.rname
    | some m => relation.rname ++ "." ++ m
  let es := s2.join a_node.id b_node.id relation.value ln_name
  let edge := es.1
  let s3 := es.2
  match metadata with
  | none => (edge, s3)
  | some m =>
    let ms := Language.get_node s3 m
    (edge, (ms.2).set_arc_anchor edge.id ms.1.id)

/-- `Language.HAS(A, a, B)`: `self.link(A, B, Atomic.HAS, a)`. -/
def Language.HAS (s : Store) (A a B : String) : Store :=
  (Language.link s A B .HAS (some a)).2

theorem find?_append_some {α : Type} (p : α → Bool) (l1 l2 : List α) (w : α)
    (h : l1.find? p = some w) : (l1 ++ l2).find? p = some w := by
  induction l1 with
  | nil => simp [List.find?] at h
  | cons x rest ih =>
    rw [List.cons_append]
    rw [List.find?] at h ⊢
    cases hp : p x with
    | true => rw [hp] at h; exact h
    | false => rw [hp] at h; exact ih h

theorem find?_append_none {α : Type} (p : α → Bool) (l1 l2 : List α)
    (h : l1.find? p = none) : (l1 ++ l2).find? p = l2.find? p := by
  induction l1 with
  | nil => simp
  | cons x rest ih =>
    rw [List.cons_append]
    rw [List.find?] at h ⊢
    cases hp : p x with
    | true =>
      rw [hp] at h
      have h' : some x = none := h
      cases h'
    | false => rw [hp] at h; exact ih h

theorem get_node_self (s : Store) (n : String) :
    ((Language.get_node s n).2).get_vertex_by_name n = some (Language.get_node s n).1 := by
  unfold Language.get_node
  cases h : s.get_vertex_by_name n with
  | some v => simp [h]
  | none =>
    simp only [Store.get_vertex_by_name] at h
    simp only [Store.add_vertex, Store.get_vertex_by_name]
    rw [find?_append_none _ _ _ h]
    simp [List.find?]

theorem get_node_preserves (s : Store) (n m : String) (w : DBVertex)
    (h : s.get_vertex_by_name m = some w) :
    ((Language.get_node s n).2).get_vertex_by_name m = some w := by
  unfold Language.get_node
  cases hn : s.get_vertex_by_name n with
  | some v => simpa using h
  | none =>
    simp only [Store.get_vertex_by_name] at h
    simp only [Store.add_vertex, Store.get_vertex_by_name]
    exact find?_append_some _ _ _ _ h

theorem get_node_arcs (s : Store) (n : String) :
    ((Language.get_node s n).2).arcs = s.arcs := by
  unfold Language.get_node
  cases hn : s.get_vertex_by_name n <;> simp [Store.add_vertex]

/-- C8: for all names, `HAS(subject, anchor, object)` resolves or creates the
three named vertices and produces exactly one new arc — from the subject
vertex to the object vertex, labeled `HAS.<anchor_name>`, with the anchor
vertex's id stored in the arc's `anchor` field.  No second arc or separate
edge record is created for the ternary fact. -/
theorem C8_HAS_one_anchored_arc (s : Store) (A a B : String) :
    (Language.HAS s A a B).arcs.length = s.arcs.length + 1
    ∧ ∃ va vb vm arc,
        (Language.HAS s A a B).get_vertex_by_name A = some va
        ∧ (Language.HAS s A a B).get_vertex_by_name B = some vb
        ∧ (Language.HAS s A a B).get_vertex_by_name a = some vm
        ∧ (Language.HAS s A a B).arcs.getLast? = some arc
        ∧ arc.start = va.id ∧ arc.endv = vb.id ∧ arc.anchor = vm.id
        ∧ arc.name = "HAS." ++ a := by
  obtain ⟨va, s1, hva⟩ : ∃ va s1, Language.get_node s A = (va, s1) := ⟨_, _, rfl⟩
  obtain ⟨vb, s2, hvb⟩ : ∃ vb s2, Language.get_node s1 B = (vb, s2) := ⟨_, _, rfl⟩
  obtain ⟨edge, s3, hedge⟩ : ∃ e s3,
      s2.join va.id vb.id Atomic.HAS.value (Atomic.HAS.rname ++ "." ++ a) = (e, s3) :=
    ⟨_, _, rfl⟩
  obtain ⟨vm, s4, hvm⟩ : ∃ vm s4, Language.get_node s3 a = (vm, s4) := ⟨_, _, rfl⟩
  have hHAS : Language.HAS s A a B = s4.set_arc_anchor edge.id vm.id := by
    simp only [Language.HAS, Language.link, hva, hvb, hedge, hvm]
  have harcs2 : s2.arcs = s.arcs := by
    have h1 := get_node_arcs s A
    have h2 := get_node_arcs s1 B
    rw [hva] at h1
    rw [hvb] at h2
    rw [h2, h1]
  have harcs3 : s3.arcs = s2.arcs ++ [edge] := by
    have h1 : (s2.join va.id vb.id Atomic.HAS.value (Atomic.HAS.rname ++ "." ++ a)).2.arcs
        = s2.arcs ++ [(s2.join va.id vb.id Atomic.HAS.value (Atomic.HAS.rname ++ "." ++ a)).1] :=
      rfl
    rw [hedge] at h1
    exact h1
  have harcs4 : s4.arcs = s3.arcs := by
    have h1 := get_node_arcs s3 a
    rw [hvm] at h1
    exact h1
  have hupd : (Language.HAS s A a B).arcs
      = s4.arcs.map (fun x => if x.id = edge.id then { x with anchor := vm.id } else x) := by
    rw [hHAS]; rfl
  constructor
  · rw [hupd, List.length_map, harcs4, harcs3, List.length_append, harcs2]
    rfl
  · have hedgeFields : edge.start = va.id ∧ edge.endv = vb.id
        ∧ edge.name = Atomic.HAS.rname ++ "." ++ a := by
      have h1 : (s2.join va.id vb.id Atomic.HAS.value (Atomic.HAS.rname ++ "." ++ a)).1.start
          = va.id := rfl
      have h2 : (s2.join va.id vb.id Atomic.HAS.value (Atomic.HAS.rname ++ "." ++ a)).1.endv
          = vb.id := rfl
      have h3 : (s2.join va.id vb.id Atomic.HAS.value (Atomic.HAS.rname ++ "." ++ a)).1.name
          = Atomic.HAS.rname ++ "." ++ a := rfl
      rw [hedge] at h1 h2 h3
      exact ⟨h1, h2, h3⟩
    have hA1 : s1.get_vertex_by_name A = some va := by
      have h1 := get_node_self s A
      rw [hva] at h1
      exact h1
    have hA2 : s2.get_vertex_by_name A = some va := by
      have h1 := get_node_preserves s1 B A va hA1
      rw [hvb] at h1
      exact h1
    have hvert3 : s3.get_vertex_by_name = s2.get_vertex_by_name := by
      have h1 : (s2.join va.id vb.id Atomic.HAS.value
          (Atomic.HAS.rname ++ "." ++ a)).2.get_vertex_by_name = s2.get_vertex_by_name := rfl
      rw [hedge] at h1
      exact h1
    have hA3 : s3.get_vertex_by_name A = some va := by rw [hvert3]; exact hA2
    have hA4 : s4.get_vertex_by_name A = some va := by
      have h1 := get_node_preserves s3 a A va hA3
      rw [hvm] at h1
      exact h1
    have hB2 : s2.get_vertex_by_name B = some vb := by
      have h1 := get_node_self s1 B
      rw [hvb] at h1
      exact h1
    have hB4 : s4.get_vertex_by_name B = some vb := by
      have h1 := get_node_preserves s3 a B vb (by rw [hvert3]; exact hB2)
      rw [hvm] at h1
      exact h1
    have hm4 : s4.get_vertex_by_name a = some vm := by
      have h1 := get_node_self s3 a
      rw [hvm] at h1
      exact h1
    have hvert5 : (Language.HAS s A a B).get_vertex_by_name = s4.get_vertex_by_name := by
      rw [hHAS]; rfl
    refine ⟨va, vb, vm, { edge with anchor := vm.id }, ?_, ?_, ?_, ?_, ?_, ?_, rfl, ?_⟩
    · rw [hvert5]; exact hA4
    · rw [hvert5]; exact hB4
    · rw [hvert5]; exact hm4
    · rw [hupd, harcs4, harcs3, List.map_append]
      simp only [List.map_cons, List.map_nil, if_pos rfl]
      exact List.getLast?_concat _
    · exact hedgeFields.1
    · exact hedgeFields.2.1
    · show ({ edge with anchor := vm.id } : DBArc).name = "HAS." ++ a
      have h1 : ({ edge with anchor := vm.id } : DBArc).name = edge.name := rfl
      rw [h1, hedgeFields.2.2]
      congr 1

/-! ### C3 — the traversal protocol (`Vertex.dfs` / `Vertex.bfs` / `visit`)

Arcs alias vertex objects and graphs may be cyclic, so the traversal is
embedded over an object heap: `Trav.Graph` maps object references (`Nat`) to
vertex records, arcs and anchors hold references, and the `visited` set holds
references (Python identity).  Callbacks thread an explicit context state.
A `fuel` argument bounds the recursion nesting (Python's termination argument
is the growing `visited` set); when it runs out the walk stops with `NOERROR`,
which the theorems below never rely on: the counterexample runs with ample
fuel and the general theorems hold for every fuel. -/

/-- Modelled from the spec: the three-way traversal result codes of
`core.utilities.Errors` (not under `src/`): `ERROR_CONTINUE`/`NOERROR`
continue, `ERROR_NO_MORE_ITEMS` is `SKIP_SUBTREE`, and every other code
(`ERROR_OTHER n`) is a `STOP`-style early exit. -/
inductive ErrorCode where
  | NOERROR
  | ERROR_CONTINUE
  | ERROR_NO_MORE_ITEMS
  | ERROR_OTHER (n : Nat)
deriving DecidableEq, Repr

namespace Trav

/-- An arc as the traversal reads it: `a.end` is a reference to the target
vertex object (the other `Arc` fields are never read by the traversal). -/
structure Arc where
  endv : Nat
deriving DecidableEq, Repr

/-- The traversal-relevant fields of a `Vertex` object. -/
structure Vertex where
  id : Int
  name : String
  arcs : List Arc
  anchor : Option Nat
deriving DecidableEq, Repr

/-- The object heap: reference → vertex.  In Python every reference reaching
the traversal points at a live object, so lookup defaults to an inert vertex
rather than failing. -/
structure Graph where
  objs : List (Nat × Vertex)
deriving DecidableEq, Repr

def Graph.getD (g : Graph) (r : Nat) : Vertex :=
  (g.objs.lookup r).getD { id := 0, name := "", arcs := [], anchor := none }

/-- A visit / pre / post callback: vertex reference, context, level. -/
abbrev Fn (σ : Type) := Nat → σ → Int → ErrorCode × σ

variable {σ : Type}

/-- The traversal result: code, final context, final visited set. -/
abbrev TravR (σ : Type) := ErrorCode × σ × List Nat

/-- The type of `Vertex.visit` at a fixed recursion level:
self, ctxt, visited, maxlevel, isdfs. -/
abbrev VisitT (σ : Type) := Nat → σ → List Nat → Int → Bool → TravR σ

/-- The type of `Vertex.traverse_dfs` / `traverse_bfs` at a fixed recursion
level: self, ctxt, maxlevel, visited. -/
abbrev WalkT (σ : Type) := Nat → σ → Int → List Nat → TravR σ

/-- The type of an arc loop at a fixed recursion level:
arcs, ctxt, maxlevel, visited, running result. -/
abbrev ArcsT (σ : Type) := List Arc → σ → Int → List Nat → ErrorCode → TravR σ

/-- The type of the *first* `traverse_bfs` arc loop: as `ArcsT`, plus a flag
that is `true` when the loop hit one of its `return` statements — in the
source those leave `traverse_bfs` itself, so the second (recursion) loop must
not run. -/
abbrev ArcsBT (σ : Type) := List Arc → σ → Int → List Nat → ErrorCode → Bool × TravR σ

/-- `Vertex.visit`, with the recursive descents (`traverse_dfs` /
`traverse_bfs` one level down) passed in as `tdfs` / `tbfs`: run `fn` on the
node (`SKIP_SUBTREE` becomes `ERROR_CONTINUE`); when anchor-visiting is on and
an anchor exists, run the pre hook, `fn` and the post hook on the anchor (with
the source's result-code guards) and then walk the anchor's subtree at the
*same* `maxlevel`.  A code other than the three known ones is returned as-is
(the source returns it from whichever guard sees it first). -/
def visitBody (g : Graph) (fn : Fn σ) (pre post : Option (Fn σ))
    (visitanchor : Bool) (tdfs tbfs : WalkT σ) (self : Nat) (ctxt : σ)
    (visited : List Nat) (maxlevel : Int) (isdfs : Bool) : TravR σ :=
  let visited := visited.insert self
  let pr := fn self ctxt maxlevel
  let result := pr.1
  let ctxt := pr.2
  match result with
  | .ERROR_NO_MORE_ITEMS => (.ERROR_CONTINUE, ctxt, visited)
  | .NOERROR | .ERROR_CONTINUE =>
    match (g.getD self).anchor, visitanchor with
    | none, _ => (result, ctxt, visited)
    | some _, false => (result, ctxt, visited)
    | some anchor, true =>
      let visited := visited.insert anchor
      let afterPre := fun (ctxt : σ) (visited : List Nat) =>
        let pr2 := fn anchor ctxt maxlevel
        let r2 := pr2.1
        let ctxt := pr2.2
        match r2 with
        | .NOERROR | .ERROR_CONTINUE | .ERROR_NO_MORE_ITEMS =>
          let descend := fun (ctxt : σ) (visited : List Nat) =>
            if isdfs then tdfs anchor ctxt maxlevel visited
            else tbfs anchor ctxt maxlevel visited
          match post with
          | none => descend ctxt visited
          | some q =>
            let pr3 := q anchor ctxt maxlevel
            let r3 := pr3.1
            let ctxt := pr3.2
            match r3 with
            | .ERROR_NO_MORE_ITEMS => (.ERROR_CONTINUE, ctxt, visited)
            | .NOERROR | .ERROR_CONTINUE => descend ctxt visited
            | .ERROR_OTHER n => (.ERROR_OTHER n, ctxt, visited)
        | .ERROR_OTHER n => (.ERROR_OTHER n, ctxt, visited)
      match pre with
      | none => afterPre ctxt visited
      | some p =>
        let pr1 := p anchor ctxt maxlevel
        let r1 := pr1.1
        let ctxt := pr1.2
        match r1 with
        | .ERROR_NO_MORE_ITEMS => (.ERROR_CONTINUE, ctxt, visited)
        | .NOERROR | .ERROR_CONTINUE => afterPre ctxt visited
        | .ERROR_OTHER n => (.ERROR_OTHER n, ctxt, visited)
  | .ERROR_OTHER n => (.ERROR_OTHER n, ctxt, visited)

/-- The `for a in self.arcs` loop of `traverse_dfs`, threading the running
`result`; `visitF` / `tdfsF` are `visit` and `traverse_dfs` at the loop's
recursion level.  Skip visited targets; run the pre hook (`SKIP_SUBTREE`
*returns* `ERROR_CONTINUE`, abandoning the remaining arcs); `visit` the
target; recurse one level deeper; run the post hook — each with the guards of
the source. -/
def dfsArcsF (pre post : Option (Fn σ)) (visitF : VisitT σ) (tdfsF : WalkT σ) :
    List Arc → σ → Int → List Nat → ErrorCode → TravR σ
  | [], ctxt, _, visited, result => (result, ctxt, visited)
  | a :: rest, ctxt, maxlevel, visited, result =>
    if a.endv ∈ visited then
      dfsArcsF pre post visitF tdfsF rest ctxt maxlevel visited result
    else
      let visited := visited.insert a.endv
      let afterPre := fun (ctxt : σ) (visited : List Nat) =>
        match visitF a.endv ctxt visited maxlevel true with
        | (r2, ctxt, visited) =>
          match r2 with
          | .ERROR_NO_MORE_ITEMS => (.ERROR_CONTINUE, ctxt, visited)
          | .NOERROR | .ERROR_CONTINUE =>
            match tdfsF a.endv ctxt (maxlevel - 1) visited with
            | (r3, ctxt, visited) =>
              match r3 with
              | .NOERROR | .ERROR_CONTINUE =>
                match post with
                | none => dfsArcsF pre post visitF tdfsF rest ctxt maxlevel visited r3
                | some q =>
                  let pr4 := q a.endv ctxt maxlevel
                  let r4 := pr4.1
                  let ctxt := pr4.2
                  match r4 with
                  | .ERROR_NO_MORE_ITEMS => (.ERROR_CONTINUE, ctxt, visited)
                  | .NOERROR | .ERROR_CONTINUE =>
                    dfsArcsF pre post visitF tdfsF rest ctxt maxlevel visited r4
                  | .ERROR_OTHER n => (.ERROR_OTHER n, ctxt, visited)
              | .ERROR_NO_MORE_ITEMS => (.ERROR_NO_MORE_ITEMS, ctxt, visited)
              | .ERROR_OTHER n => (.ERROR_OTHER n, ctxt, visited)
          | .ERROR_OTHER n => (.ERROR_OTHER n, ctxt, visited)
      match pre with
      | none => afterPre ctxt visited
      | some p =>
        let pr1 := p a.endv ctxt maxlevel
        let r1 := pr1.1
        let ctxt := pr1.2
        match r1 with
        | .ERROR_NO_MORE_ITEMS => (.ERROR_CONTINUE, ctxt, visited)
        | .NOERROR | .ERROR_CONTINUE => afterPre ctxt visited
        | .ERROR_OTHER n => (.ERROR_OTHER n, ctxt, visited)

/-- `Vertex.traverse_dfs`: nothing below level 0; otherwise the arc loop
(`dfsA`). -/
def tdfsBody (g : Graph) (dfsA : ArcsT σ) (self : Nat) (ctxt : σ)
    (maxlevel : Int) (visited : List Nat) : TravR σ :=
  if maxlevel ≤ 0 then (.NOERROR, ctxt, visited)
  else dfsA (g.getD self).arcs ctxt maxlevel visited .NOERROR

/-- The first `for a in self.arcs` loop of `traverse_bfs` (pre hook, `visit`,
post hook on each unvisited target — no descent).  Every `return` in this
loop leaves the enclosing `traverse_bfs` itself; the flag records that, so
`tbfsBody` can skip the recursion loop after an early exit. -/
def bfsVisitArcsF (pre post : Option (Fn σ)) (visitF : VisitT σ) :
    List Arc → σ → Int → List Nat → ErrorCode → Bool × TravR σ
  | [], ctxt, _, visited, result => (false, result, ctxt, visited)
  | a :: rest, ctxt, maxlevel, visited, result =>
    if a.endv ∈ visited then
      bfsVisitArcsF pre post visitF rest ctxt maxlevel visited result
    else
      let visited := visited.insert a.endv
      let afterPre := fun (ctxt : σ) (visited : List Nat) =>
        match visitF a.endv ctxt visited maxlevel false with
        | (r2, ctxt, visited) =>
          match r2 with
          | .ERROR_NO_MORE_ITEMS => (true, .ERROR_CONTINUE, ctxt, visited)
          | .NOERROR | .ERROR_CONTINUE =>
            match post with
            | none => bfsVisitArcsF pre post visitF rest ctxt maxlevel visited r2
            | some q =>
              let pr4 := q a.endv ctxt maxlevel
              let r4 := pr4.1
              let ctxt := pr4.2
              match r4 with
              | .ERROR_NO_MORE_ITEMS => (true, .ERROR_CONTINUE, ctxt, visited)
              | .NOERROR | .ERROR_CONTINUE =>
                bfsVisitArcsF pre post visitF rest ctxt maxlevel visited r4
              | .ERROR_OTHER n => (true, .ERROR_OTHER n, ctxt, visited)
          | .ERROR_OTHER n => (true, .ERROR_OTHER n, ctxt, visited)
      match pre with
      | none => afterPre ctxt visited
      | some p =>
        let pr1 := p a.endv ctxt maxlevel
        let r1 := pr1.1
        let ctxt := pr1.2
        match r1 with
        | .ERROR_NO_MORE_ITEMS => (true, .ERROR_CONTINUE, ctxt, visited)
        | .NOERROR | .ERROR_CONTINUE => afterPre ctxt visited
        | .ERROR_OTHER n => (true, .ERROR_OTHER n, ctxt, visited)

/-- The second `for a in self.arcs` loop of `traverse_bfs` (recursion one
level deeper into unvisited targets — after the first loop every target is
already visited, so this loop's body never fires). -/
def bfsRecurseArcsF (tbfsF : WalkT σ) :
    List Arc → σ → Int → List Nat → ErrorCode → TravR σ
  | [], ctxt, _, visited, result => (result, ctxt, visited)
  | a :: rest, ctxt, maxlevel, visited, result =>
    if a.endv ∈ visited then
      bfsRecurseArcsF tbfsF rest ctxt maxlevel visited result
    else
      match tbfsF a.endv ctxt (maxlevel - 1) visited with
      | (r2, ctxt, visited) =>
        match r2 with
        | .NOERROR | .ERROR_CONTINUE =>
          bfsRecurseArcsF tbfsF rest ctxt maxlevel visited r2
        | .ERROR_NO_MORE_ITEMS => (.ERROR_NO_MORE_ITEMS, ctxt, visited)
        | .ERROR_OTHER n => (.ERROR_OTHER n, ctxt, visited)

/-- `Vertex.traverse_bfs`: nothing below level 0; visit the whole level
(first loop — when it exited on one of its `return` statements that is the
whole function's result), then — only above level 1 — the recursion loop on
the running result of the completed first loop. -/
def tbfsBody (g : Graph) (bfsA1 : ArcsBT σ) (bfsA2 : ArcsT σ) (self : Nat)
    (ctxt : σ) (maxlevel : Int) (visited : List Nat) : TravR σ :=
  if maxlevel ≤ 0 then (.NOERROR, ctxt, visited)
  else
    match bfsA1 (g.getD self).arcs ctxt maxlevel visited .NOERROR with
    | (early, r, ctxt, visited) =>
      if early then (r, ctxt, visited)
      else if maxlevel ≤ 1 then (r, ctxt, visited)
      else bfsA2 (g.getD self).arcs ctxt maxlevel visited r

/-- The mutual recursion of `visit` / `traverse_dfs` / `traverse_bfs`, tied
as a fuel-indexed tuple (visit, traverse_dfs, traverse_bfs): level `fuel + 1`
plugs the level-`fuel` functions into the bodies above (Python's recursion
terminates because `visited` grows; the fuel only bounds the nesting in the
embedding, and the theorems hold for every fuel). -/
def walker (g : Graph) (fn : Fn σ) (pre post : Option (Fn σ)) (visitanchor : Bool) :
    Nat → VisitT σ × WalkT σ × WalkT σ
  | 0 =>
    (fun _ ctxt visited _ _ => (.NOERROR, ctxt, visited),
     fun _ ctxt _ visited => (.NOERROR, ctxt, visited),
     fun _ ctxt _ visited => (.NOERROR, ctxt, visited))
  | fuel + 1 =>
    let W := walker g fn pre post visitanchor fuel
    (visitBody g fn pre post visitanchor W.2.1 W.2.2,
     tdfsBody g (dfsArcsF pre post W.1 W.2.1),
     tbfsBody g (bfsVisitArcsF pre post W.1) (bfsRecurseArcsF W.2.2))

/-- `Vertex.visit` at a given recursion budget. -/
def visit (g : Graph) (fn : Fn σ) (pre post : Option (Fn σ)) (visitanchor : Bool)
    (fuel : Nat) : VisitT σ :=
  (walker g fn pre post visitanchor fuel).1

/-- `Vertex.traverse_dfs` at a given recursion budget. -/
def traverse_dfs (g : Graph) (fn : Fn σ) (pre post : Option (Fn σ))
    (visitanchor : Bool) (fuel : Nat) : WalkT σ :=
  (walker g fn pre post visitanchor fuel).2.1

/-- `Vertex.traverse_bfs` at a given recursion budget. -/
def traverse_bfs (g : Graph) (fn : Fn σ) (pre post : Option (Fn σ))
    (visitanchor : Bool) (fuel : Nat) : WalkT σ :=
  (walker g fn pre post visitanchor fuel).2.2

/-- `Vertex.dfs`: nothing at depth 0; seed `visited` with the root, `visit`
it, and — unless the visit result stops the walk — run the arc traversal one
level shallower. -/
def dfs (g : Graph) (fn : Fn σ) (pre post : Option (Fn σ)) (visitanchor : Bool)
    (fuel : Nat) (self : Nat) (ctxt : σ) (depth : Int) : ErrorCode × σ × List Nat :=
  if depth ≤ 0 then (.NOERROR, ctxt, [])
  else
    let visited : List Nat := [self]
    match visit g fn pre post visitanchor fuel self ctxt visited depth true with
    | (r, ctxt, visited) =>
      match r with
      | .NOERROR | .ERROR_CONTINUE =>
        traverse_dfs g fn pre post visitanchor fuel self ctxt (depth - 1) visited
      | .ERROR_NO_MORE_ITEMS => (.ERROR_NO_MORE_ITEMS, ctxt, visited)
      | .ERROR_OTHER n => (.ERROR_OTHER n, ctxt, visited)

/-- `Vertex.bfs`: depth 0 ends at once; otherwise visit the root and, when
the visit result lets the walk continue, the source calls
`self.traverse_bfs( fn, ctxt, depth-1, visitanchor, visited )` — five
positional arguments for a method whose seven parameters (`preproc`,
`postproc` included) have no defaults — so every descending `bfs` raises
`TypeError` instead of traversing. -/
def bfs (g : Graph) (fn : Fn σ) (pre post : Option (Fn σ)) (visitanchor : Bool)
    (fuel : Nat) (self : Nat) (ctxt : σ) (depth : Int) :
    Except PyError (ErrorCode × σ × List Nat) :=
  if depth ≤ 0 then .ok (.NOERROR, ctxt, [])
  else
    let visited : List Nat := [self]
    match visit g fn pre post visitanchor fuel self ctxt visited depth false with
    | (r, ctxt, visited) =>
      match r with
      | .NOERROR | .ERROR_CONTINUE => .error .typeError
      | .ERROR_NO_MORE_ITEMS => .ok (.ERROR_NO_MORE_ITEMS, ctxt, visited)
      | .ERROR_OTHER n => .ok (.ERROR_OTHER n, ctxt, visited)

/-- A callback is tame when it only ever answers continue / no-error /
skip-subtree — equivalently (the result type has exactly four shapes), it
never answers a `STOP`-style `ERROR_OTHER` code. -/
def Tame (f : Fn σ) : Prop :=
  ∀ v c ml n, (f v c ml).1 ≠ ErrorCode.ERROR_OTHER n

/-- Tameness for an optional hook. -/
def TameO : Option (Fn σ) → Prop
  | none => True
  | some f => Tame f

/-- The result code is not `SKIP_SUBTREE` (it never escapes a traversal). -/
def notSkipR (r : TravR σ) : Prop := r.1 ≠ ErrorCode.ERROR_NO_MORE_ITEMS

/-- The result code is a success (continue / no-error). -/
def contR (r : TravR σ) : Prop := r.1 = ErrorCode.NOERROR ∨ r.1 = ErrorCode.ERROR_CONTINUE

set_option maxHeartbeats 1600000 in
theorem visitBody_notSkip (g : Graph) (fn : Fn σ) (pre post : Option (Fn σ))
    (visitanchor : Bool) (tdfs tbfs : WalkT σ)
    (ht : ∀ a c ml v, notSkipR (tdfs a c ml v))
    (hb : ∀ a c ml v, notSkipR (tbfs a c ml v))
    (self : Nat) (ctxt : σ) (visited : List Nat) (maxlevel : Int) (isdfs : Bool) :
    notSkipR (visitBody g fn pre post visitanchor tdfs tbfs self ctxt visited maxlevel isdfs) := by
  unfold notSkipR visitBody
  repeat' split
  all_goals try simp_all
  all_goals try (cases h1 : (fn self ctxt maxlevel).1 <;> simp_all)
  all_goals try (repeat' split)
  all_goals try exact ht _ _ _ _
  all_goals try exact hb _ _ _ _
  all_goals simp_all

set_option maxHeartbeats 1600000 in
theorem visitBody_cont (g : Graph) (fn : Fn σ) (pre post : Option (Fn σ))
    (visitanchor : Bool) (tdfs tbfs : WalkT σ)
    (hfn : Tame fn) (hpre : TameO pre) (hpost : TameO post)
    (ht : ∀ a c ml v, contR (tdfs a c ml v))
    (hb : ∀ a c ml v, contR (tbfs a c ml v))
    (self : Nat) (ctxt : σ) (visited : List Nat) (maxlevel : Int) (isdfs : Bool) :
    contR (visitBody g fn pre post visitanchor tdfs tbfs self ctxt visited maxlevel isdfs) := by
  unfold contR visitBody
  repeat' split
  all_goals try simp_all [Tame, TameO]
  all_goals try (cases h1 : (fn self ctxt maxlevel).1 <;> simp_all [Tame, TameO])
  all_goals try (repeat' split)
  all_goals try exact ht _ _ _ _
  all_goals try exact hb _ _ _ _
  all_goals simp_all [Tame, TameO]

/-- A success code is exactly one that is neither skip nor an other-error. -/
theorem contR_iff (r : TravR σ) :
    contR r ↔ (notSkipR r ∧ ∀ n, r.1 ≠ ErrorCode.ERROR_OTHER n) := by
  obtain ⟨r1, c, v⟩ := r
  cases r1 <;> simp [contR, notSkipR]

set_option maxHeartbeats 1600000 in
theorem dfsArcsF_notSkip (pre post : Option (Fn σ)) (visitF : VisitT σ)
    (tdfsF : WalkT σ)
    (ht : ∀ a c ml v, (tdfsF a c ml v).1 ≠ ErrorCode.ERROR_NO_MORE_ITEMS)
    (arcs : List Arc) (ctxt : σ) (maxlevel : Int) (visited : List Nat)
    (result : ErrorCode) (hres : result ≠ ErrorCode.ERROR_NO_MORE_ITEMS) :
    notSkipR (dfsArcsF pre post visitF tdfsF arcs ctxt maxlevel visited result) := by
  induction arcs generalizing ctxt visited result with
  | nil => exact hres
  | cons a rest ih =>
    unfold notSkipR dfsArcsF
    repeat' split
    all_goals try exact ih _ _ _ hres
    all_goals try simp_all [Prod.ext_iff]
    all_goals repeat' split
    all_goals try exact ih _ _ _ hres
    all_goals try exact ih _ _ _ (by simp)
    all_goals try exact (ih _ _).1
    all_goals try exact (ih _ _).2
    all_goals try simp_all [Prod.ext_iff]
    all_goals repeat' split
    all_goals try exact ih _ _ _ hres
    all_goals try exact ih _ _ _ (by simp)
    all_goals try exact (ih _ _).1
    all_goals try exact (ih _ _).2
    all_goals try simp_all [Prod.ext_iff]

set_option maxHeartbeats 1600000 in
theorem dfsArcsF_cont (pre post : Option (Fn σ)) (visitF : VisitT σ)
    (tdfsF : WalkT σ) (hpre : TameO pre) (hpost : TameO post)
    (hvO : ∀ s c v ml b n, (visitF s c v ml b).1 ≠ ErrorCode.ERROR_OTHER n)
    (htS : ∀ a c ml v, (tdfsF a c ml v).1 ≠ ErrorCode.ERROR_NO_MORE_ITEMS)
    (htO : ∀ a c ml v n, (tdfsF a c ml v).1 ≠ ErrorCode.ERROR_OTHER n)
    (arcs : List Arc) (ctxt : σ) (maxlevel : Int) (visited : List Nat)
    (result : ErrorCode)
    (hres : result = ErrorCode.NOERROR ∨ result = ErrorCode.ERROR_CONTINUE) :
    contR (dfsArcsF pre post visitF tdfsF arcs ctxt maxlevel visited result) := by
  induction arcs generalizing ctxt visited result with
  | nil => exact hres
  | cons a rest ih =>
    unfold contR dfsArcsF
    repeat' split
    all_goals try exact ih _ _ _ hres
    all_goals try simp_all [Tame, TameO, Prod.ext_iff]
    all_goals repeat' split
    all_goals try exact ih _ _ _ hres
    all_goals try exact ih _ _ _ (by simp)
    all_goals try exact (ih _ _).1
    all_goals try exact (ih _ _).2
    all_goals try simp_all [Tame, TameO, Prod.ext_iff]
    all_goals repeat' split
    all_goals try exact ih _ _ _ hres
    all_goals try exact ih _ _ _ (by simp)
    all_goals try exact (ih _ _).1
    all_goals try exact (ih _ _).2
    all_goals try simp_all [Tame, TameO, Prod.ext_iff]

set_option maxHeartbeats 1600000 in
theorem bfsVisitArcsF_notSkip (pre post : Option (Fn σ)) (visitF : VisitT σ)
    (arcs : List Arc) (ctxt : σ) (maxlevel : Int) (visited : List Nat)
    (result : ErrorCode) (hres : result ≠ ErrorCode.ERROR_NO_MORE_ITEMS) :
    notSkipR (bfsVisitArcsF pre post visitF arcs ctxt maxlevel visited result).2 := by
  induction arcs generalizing ctxt visited result with
  | nil => exact hres
  | cons a rest ih =>
    unfold notSkipR bfsVisitArcsF
    repeat' split
    all_goals try exact ih _ _ _ hres
    all_goals try simp_all [Prod.ext_iff]
    all_goals repeat' split
    all_goals try exact ih _ _ _ hres
    all_goals try exact ih _ _ _ (by simp)
    all_goals try exact (ih _ _).1
    all_goals try exact (ih _ _).2
    all_goals try simp_all [Prod.ext_iff]
    all_goals repeat' split
    all_goals try exact ih _ _ _ hres
    all_goals try exact ih _ _ _ (by simp)
    all_goals try exact (ih _ _).1
    all_goals try exact (ih _ _).2
    all_goals try simp_all [Prod.ext_iff]

set_option maxHeartbeats 1600000 in
theorem bfsVisitArcsF_cont (pre post : Option (Fn σ)) (visitF : VisitT σ)
    (hpre : TameO pre) (hpost : TameO post)
    (hvO : ∀ s c v ml b n, (visitF s c v ml b).1 ≠ ErrorCode.ERROR_OTHER n)
    (arcs : List Arc) (ctxt : σ) (maxlevel : Int) (visited : List Nat)
    (result : ErrorCode)
    (hres : result = ErrorCode.NOERROR ∨ result = ErrorCode.ERROR_CONTINUE) :
    contR (bfsVisitArcsF pre post visitF arcs ctxt maxlevel visited result).2 := by
  induction arcs generalizing ctxt visited result with
  | nil => exact hres
  | cons a rest ih =>
    unfold contR bfsVisitArcsF
    repeat' split
    all_goals try exact ih _ _ _ hres
    all_goals try simp_all [Tame, TameO, Prod.ext_iff]
    all_goals repeat' split
    all_goals try exact ih _ _ _ hres
    all_goals try exact ih _ _ _ (by simp)
    all_goals try exact (ih _ _).1
    all_goals try exact (ih _ _).2
    all_goals try simp_all [Tame, TameO, Prod.ext_iff]
    all_goals repeat' split
    all_goals try exact ih _ _ _ hres
    all_goals try exact ih _ _ _ (by simp)
    all_goals try exact (ih _ _).1
    all_goals try exact (ih _ _).2
    all_goals try simp_all [Tame, TameO, Prod.ext_iff]

set_option maxHeartbeats 1600000 in
theorem bfsRecurseArcsF_notSkip (tbfsF : WalkT σ)
    (hb : ∀ a c ml v, (tbfsF a c ml v).1 ≠ ErrorCode.ERROR_NO_MORE_ITEMS)
    (arcs : List Arc) (ctxt : σ) (maxlevel : Int) (visited : List Nat)
    (result : ErrorCode) (hres : result ≠ ErrorCode.ERROR_NO_MORE_ITEMS) :
    notSkipR (bfsRecurseArcsF tbfsF arcs ctxt maxlevel visited result) := by
  induction arcs generalizing ctxt visited result with
  | nil => exact hres
  | cons a rest ih =>
    unfold notSkipR bfsRecurseArcsF
    repeat' split
    all_goals try exact ih _ _ _ hres
    all_goals try exact ih _ _ _ (by simp)
    all_goals try exact (ih _ _).1
    all_goals try exact (ih _ _).2
    all_goals try simp_all [Prod.ext_iff]
    all_goals repeat' split
    all_goals try exact ih _ _ _ hres
    all_goals try exact ih _ _ _ (by simp)
    all_goals try exact (ih _ _).1
    all_goals try exact (ih _ _).2
    all_goals try simp_all [Prod.ext_iff]

set_option maxHeartbeats 1600000 in
theorem bfsRecurseArcsF_cont (tbfsF : WalkT σ)
    (hbS : ∀ a c ml v, (tbfsF a c ml v).1 ≠ ErrorCode.ERROR_NO_MORE_ITEMS)
    (hbO : ∀ a c ml v n, (tbfsF a c ml v).1 ≠ ErrorCode.ERROR_OTHER n)
    (arcs : List Arc) (ctxt : σ) (maxlevel : Int) (visited : List Nat)
    (result : ErrorCode)
    (hres : result = ErrorCode.NOERROR ∨ result = ErrorCode.ERROR_CONTINUE) :
    contR (bfsRecurseArcsF tbfsF arcs ctxt maxlevel visited result) := by
  induction arcs generalizing ctxt visited result with
  | nil => exact hres
  | cons a rest ih =>
    unfold contR bfsRecurseArcsF
    repeat' split
    all_goals try exact ih _ _ _ hres
    all_goals try exact ih _ _ _ (by simp)
    all_goals try exact (ih _ _).1
    all_goals try exact (ih _ _).2
    all_goals try simp_all [Prod.ext_iff]
    all_goals repeat' split
    all_goals try exact ih _ _ _ hres
    all_goals try exact ih _ _ _ (by simp)
    all_goals try exact (ih _ _).1
    all_goals try exact (ih _ _).2
    all_goals try simp_all [Prod.ext_iff]

theorem tdfsBody_notSkip (g : Graph) (dfsA : ArcsT σ)
    (hA : ∀ arcs c ml v r, r ≠ ErrorCode.ERROR_NO_MORE_ITEMS →
      notSkipR (dfsA arcs c ml v r))
    (self : Nat) (ctxt : σ) (maxlevel : Int) (visited : List Nat) :
    notSkipR (tdfsBody g dfsA self ctxt maxlevel visited) := by
  unfold notSkipR tdfsBody
  split
  · simp
  · exact hA _ _ _ _ _ (by simp)

theorem tdfsBody_cont (g : Graph) (dfsA : ArcsT σ)
    (hA : ∀ arcs c ml v r,
      (r = ErrorCode.NOERROR ∨ r = ErrorCode.ERROR_CONTINUE) →
      contR (dfsA arcs c ml v r))
    (self : Nat) (ctxt : σ) (maxlevel : Int) (visited : List Nat) :
    contR (tdfsBody g dfsA self ctxt maxlevel visited) := by
  unfold contR tdfsBody
  split
  · simp
  · exact hA _ _ _ _ _ (by simp)

set_option maxHeartbeats 1600000 in
theorem tbfsBody_notSkip (g : Graph) (bfsA1 : ArcsBT σ) (bfsA2 : ArcsT σ)
    (hA1 : ∀ arcs c ml v r, r ≠ ErrorCode.ERROR_NO_MORE_ITEMS →
      notSkipR (bfsA1 arcs c ml v r).2)
    (hA2 : ∀ arcs c ml v r, r ≠ ErrorCode.ERROR_NO_MORE_ITEMS →
      notSkipR (bfsA2 arcs c ml v r))
    (self : Nat) (ctxt : σ) (maxlevel : Int) (visited : List Nat) :
    notSkipR (tbfsBody g bfsA1 bfsA2 self ctxt maxlevel visited) := by
  have h1 := hA1 (g.getD self).arcs ctxt maxlevel visited .NOERROR (by simp)
  unfold notSkipR tbfsBody
  split
  · simp
  · generalize hres :
      bfsA1 (g.getD self).arcs ctxt maxlevel visited ErrorCode.NOERROR = out at h1 ⊢
    obtain ⟨early, r, c2, v2⟩ := out
    have h1' : r ≠ ErrorCode.ERROR_NO_MORE_ITEMS := h1
    cases early
    · simp only [Bool.false_eq_true, if_false]
      split
      · exact h1'
      · exact hA2 _ _ _ _ _ h1'
    · simpa using h1'

set_option maxHeartbeats 1600000 in
theorem tbfsBody_cont (g : Graph) (bfsA1 : ArcsBT σ) (bfsA2 : ArcsT σ)
    (hA1 : ∀ arcs c ml v r,
      (r = ErrorCode.NOERROR ∨ r = ErrorCode.ERROR_CONTINUE) →
      contR (bfsA1 arcs c ml v r).2)
    (hA2 : ∀ arcs c ml v r,
      (r = ErrorCode.NOERROR ∨ r = ErrorCode.ERROR_CONTINUE) →
      contR (bfsA2 arcs c ml v r))
    (self : Nat) (ctxt : σ) (maxlevel : Int) (visited : List Nat) :
    contR (tbfsBody g bfsA1 bfsA2 self ctxt maxlevel visited) := by
  have h1 := hA1 (g.getD self).arcs ctxt maxlevel visited .NOERROR (by simp)
  unfold contR tbfsBody
  split
  · simp
  · generalize hres :
      bfsA1 (g.getD self).arcs ctxt maxlevel visited ErrorCode.NOERROR = out at h1 ⊢
    obtain ⟨early, r, c2, v2⟩ := out
    have h1' : r = ErrorCode.NOERROR ∨ r = ErrorCode.ERROR_CONTINUE := h1
    cases early
    · simp only [Bool.false_eq_true, if_false]
      split
      · exact h1'
      · exact hA2 _ _ _ _ _ h1'
    · simpa using h1'

/-- No level of the traversal ever returns `ERROR_NO_MORE_ITEMS`
(`SKIP_SUBTREE`): every guard either translates it to `ERROR_CONTINUE` or
only forwards codes produced by a lower level, which by induction are never
skip codes.  No assumption on the callbacks is needed. -/
theorem walker_notSkip (g : Graph) (fn : Fn σ) (pre post : Option (Fn σ))
    (visitanchor : Bool) (fuel : Nat) :
    (∀ s c v ml b, notSkipR ((walker g fn pre post visitanchor fuel).1 s c v ml b)) ∧
    (∀ a c ml v, notSkipR ((walker g fn pre post visitanchor fuel).2.1 a c ml v)) ∧
    (∀ a c ml v, notSkipR ((walker g fn pre post visitanchor fuel).2.2 a c ml v)) := by
  induction fuel with
  | zero =>
    refine ⟨?_, ?_, ?_⟩ <;> intros <;> simp [walker, notSkipR]
  | succ fuel ih =>
    obtain ⟨ihv, ihd, ihb⟩ := ih
    refine ⟨?_, ?_, ?_⟩
    · intro s c v ml b
      simpa [walker] using
        visitBody_notSkip g fn pre post visitanchor _ _ ihd ihb s c v ml b
    · intro a c ml v
      simpa [walker] using
        tdfsBody_notSkip g _
          (fun arcs c2 ml2 v2 r hr =>
            dfsArcsF_notSkip pre post _ _ ihd arcs c2 ml2 v2 r hr) a c ml v
    · intro a c ml v
      simpa [walker] using
        tbfsBody_notSkip g _ _
          (fun arcs c2 ml2 v2 r hr =>
            bfsVisitArcsF_notSkip pre post _ arcs c2 ml2 v2 r hr)
          (fun arcs c2 ml2 v2 r hr =>
            bfsRecurseArcsF_notSkip _ ihb arcs c2 ml2 v2 r hr) a c ml v

/-- With tame callbacks (no `ERROR_OTHER`), every level of the traversal
returns a success code. -/
theorem walker_cont (g : Graph) (fn : Fn σ) (pre post : Option (Fn σ))
    (visitanchor : Bool)
    (hfn : Tame fn) (hpre : TameO pre) (hpost : TameO post) (fuel : Nat) :
    (∀ s c v ml b, contR ((walker g fn pre post visitanchor fuel).1 s c v ml b)) ∧
    (∀ a c ml v, contR ((walker g fn pre post visitanchor fuel).2.1 a c ml v)) ∧
    (∀ a c ml v, contR ((walker g fn pre post visitanchor fuel).2.2 a c ml v)) := by
  induction fuel with
  | zero =>
    refine ⟨?_, ?_, ?_⟩ <;> intros <;> simp [walker, contR]
  | succ fuel ih =>
    obtain ⟨ihv, ihd, ihb⟩ := ih
    have ihvO : ∀ s c v ml b n,
        ((walker g fn pre post visitanchor fuel).1 s c v ml b).1 ≠
          ErrorCode.ERROR_OTHER n :=
      fun s c v ml b => ((contR_iff _).1 (ihv s c v ml b)).2
    have ihdS : ∀ a c ml v,
        notSkipR ((walker g fn pre post visitanchor fuel).2.1 a c ml v) :=
      fun a c ml v => ((contR_iff _).1 (ihd a c ml v)).1
    have ihdO : ∀ a c ml v n,
        ((walker g fn pre post visitanchor fuel).2.1 a c ml v).1 ≠
          ErrorCode.ERROR_OTHER n :=
      fun a c ml v => ((contR_iff _).1 (ihd a c ml v)).2
    have ihbS : ∀ a c ml v,
        notSkipR ((walker g fn pre post visitanchor fuel).2.2 a c ml v) :=
      fun a c ml v => ((contR_iff _).1 (ihb a c ml v)).1
    have ihbO : ∀ a c ml v n,
        ((walker g fn pre post visitanchor fuel).2.2 a c ml v).1 ≠
          ErrorCode.ERROR_OTHER n :=
      fun a c ml v => ((contR_iff _).1 (ihb a c ml v)).2
    refine ⟨?_, ?_, ?_⟩
    · intro s c v ml b
      simpa [walker] using
        visitBody_cont g fn pre post visitanchor _ _ hfn hpre hpost ihd ihb s c v ml b
    · intro a c ml v
      simpa [walker] using
        tdfsBody_cont g _
          (fun arcs c2 ml2 v2 r hr =>
            dfsArcsF_cont pre post _ _ hpre hpost ihvO ihdS ihdO arcs c2 ml2 v2 r hr)
          a c ml v
    · intro a c ml v
      simpa [walker] using
        tbfsBody_cont g _ _
          (fun arcs c2 ml2 v2 r hr =>
            bfsVisitArcsF_cont pre post _ hpre hpost ihvO arcs c2 ml2 v2 r hr)
          (fun arcs c2 ml2 v2 r hr =>
            bfsRecurseArcsF_cont _ ihbS ihbO arcs c2 ml2 v2 r hr)
          a c ml v

/-- `Vertex.dfs` never surfaces `SKIP_SUBTREE` to its caller. -/
theorem dfs_notSkip (g : Graph) (fn : Fn σ) (pre post : Option (Fn σ))
    (visitanchor : Bool) (fuel : Nat) (self : Nat) (ctxt : σ) (depth : Int) :
    notSkipR (dfs g fn pre post visitanchor fuel self ctxt depth) := by
  obtain ⟨hv, hd, _⟩ := walker_notSkip g fn pre post visitanchor fuel
  unfold notSkipR dfs
  repeat' split
  all_goals try exact hd _ _ _ _
  all_goals try simp_all [visit, traverse_dfs, notSkipR, Prod.ext_iff]
  all_goals repeat' split
  all_goals try exact hd _ _ _ _
  all_goals try simp_all [visit, traverse_dfs, notSkipR, Prod.ext_iff]

/-- Any result `Vertex.bfs` actually returns — rather than raising the
`TypeError` of its five-argument `traverse_bfs` call — is never
`SKIP_SUBTREE`. -/
theorem bfs_ok_notSkip (g : Graph) (fn : Fn σ) (pre post : Option (Fn σ))
    (visitanchor : Bool) (fuel : Nat) (self : Nat) (ctxt : σ) (depth : Int)
    (res : ErrorCode × σ × List Nat)
    (hres : bfs g fn pre post visitanchor fuel self ctxt depth = .ok res) :
    notSkipR res := by
  obtain ⟨hv, _, _⟩ := walker_notSkip g fn pre post visitanchor fuel
  obtain ⟨r0, c0, v0⟩ := res
  unfold bfs at hres
  dsimp only at hres
  unfold notSkipR
  split at hres
  · simp only [Except.ok.injEq, Prod.mk.injEq] at hres
    simp [← hres.1]
  · generalize hok :
      visit g fn pre post visitanchor fuel self ctxt [self] depth false = out at hres
    obtain ⟨r, c2, v2⟩ := out
    have hnv : r ≠ ErrorCode.ERROR_NO_MORE_ITEMS := by
      have h2 := hv self ctxt [self] depth false
      unfold visit at hok
      rw [hok] at h2
      exact h2
    cases r with
    | NOERROR => simp at hres
    | ERROR_CONTINUE => simp at hres
    | ERROR_NO_MORE_ITEMS => exact absurd rfl hnv
    | ERROR_OTHER n =>
      simp only [Except.ok.injEq, Prod.mk.injEq] at hres
      simp [← hres.1]

/-- With tame callbacks, `Vertex.dfs` returns a success code. -/
theorem dfs_cont (g : Graph) (fn : Fn σ) (pre post : Option (Fn σ))
    (visitanchor : Bool)
    (hfn : Tame fn) (hpre : TameO pre) (hpost : TameO post)
    (fuel : Nat) (self : Nat) (ctxt : σ) (depth : Int) :
    contR (dfs g fn pre post visitanchor fuel self ctxt depth) := by
  obtain ⟨hv, hd, _⟩ := walker_cont g fn pre post visitanchor hfn hpre hpost fuel
  have hvS := (walker_notSkip g fn pre post visitanchor fuel).1
  have hvO : ∀ s c v ml b n,
      ((walker g fn pre post visitanchor fuel).1 s c v ml b).1 ≠
        ErrorCode.ERROR_OTHER n :=
    fun s c v ml b => ((contR_iff _).1 (hv s c v ml b)).2
  unfold contR dfs
  repeat' split
  all_goals try exact hd _ _ _ _
  all_goals try simp_all [visit, traverse_dfs, contR, notSkipR, Prod.ext_iff]
  all_goals repeat' split
  all_goals try exact hd _ _ _ _
  all_goals try simp_all [visit, traverse_dfs, contR, notSkipR, Prod.ext_iff]

/-- With tame callbacks and a positive depth, the root visit always answers
a continue-style code, so `Vertex.bfs` always reaches the source's
five-positional-argument `traverse_bfs` call and raises `TypeError`. -/
theorem bfs_typeError (g : Graph) (fn : Fn σ) (pre post : Option (Fn σ))
    (visitanchor : Bool)
    (hfn : Tame fn) (hpre : TameO pre) (hpost : TameO post)
    (fuel : Nat) (self : Nat) (ctxt : σ) (depth : Int) (hdep : 0 < depth) :
    bfs g fn pre post visitanchor fuel self ctxt depth =
      .error PyError.typeError := by
  obtain ⟨hv, _, _⟩ := walker_cont g fn pre post visitanchor hfn hpre hpost fuel
  have hd : ¬(depth ≤ 0) := by omega
  unfold bfs
  rw [if_neg hd]
  dsimp only
  generalize hok :
    visit g fn pre post visitanchor fuel self ctxt [self] depth false = out
  obtain ⟨r, c2, v2⟩ := out
  have h2 := hv self ctxt [self] depth false
  unfold visit at hok
  rw [hok] at h2
  have h3 : r = ErrorCode.NOERROR ∨ r = ErrorCode.ERROR_CONTINUE := h2
  rcases h3 with rfl | rfl <;> simp

end Trav

/-- A three-object chain 1 → 2 → 3 on the heap (ids 1, 2, 3; no anchors). -/
def cg3 : Trav.Graph :=
  ⟨[(1, ⟨1, "a", [⟨2⟩], none⟩), (2, ⟨2, "b", [⟨3⟩], none⟩),
    (3, ⟨3, "c", [], none⟩)]⟩

/-- A visit callback that logs the visited reference in its context and
always answers `SKIP_SUBTREE` (`ERROR_NO_MORE_ITEMS`). -/
def skipAllFn : Trav.Fn (List Nat) :=
  fun v log _ => (ErrorCode.ERROR_NO_MORE_ITEMS, log ++ [v])

/-- Running `dfs` on the chain 1 → 2 → 3 with a visit callback that answers
`SKIP_SUBTREE` at every vertex still visits all three vertices (the context
logs the callback firing on 1, 2 and 3): `visit` translates the callback's
skip answer to `ERROR_CONTINUE` before the arc loop consults it, so the
arc loop descends into the skipped vertex's arc targets anyway — against
the claim that a `SKIP_SUBTREE` from the visit callback prevents descent
into that vertex's arc targets. -/
theorem C3_counterexample :
    Trav.dfs cg3 skipAllFn none none false 6 1 ([] : List Nat) 10 =
      (ErrorCode.NOERROR, [1, 2, 3], [3, 2, 1]) := by
  decide

/-- A visit callback that logs the visited reference in its context and
always answers the stop-style other code `7`. -/
def stopFn : Trav.Fn (List Nat) :=
  fun v log _ => (ErrorCode.ERROR_OTHER 7, log ++ [v])

/-- **C3** (amended): what the traversal guards do guarantee is that
`SKIP_SUBTREE` never escapes to a caller: for every heap, callback set and
arguments, `Vertex.dfs` never returns `ERROR_NO_MORE_ITEMS` and neither
does any result `Vertex.bfs` actually returns; with callbacks that only
ever answer `NOERROR` / `ERROR_CONTINUE` / `ERROR_NO_MORE_ITEMS` (no
stop-style `ERROR_OTHER` code), `dfs` returns `NOERROR` or
`ERROR_CONTINUE` — a pruned branch never aborts a depth-first walk — while
`bfs` at positive depth always raises `TypeError` (its `traverse_bfs` call
passes five positional arguments to a seven-parameter method).  The
original claim's further reading — that the visit callback's
`SKIP_SUBTREE` prevents descent — is refuted by `C3_counterexample`. -/
theorem C3_skip_subtree {σ : Type} (g : Trav.Graph) (fn : Trav.Fn σ)
    (pre post : Option (Trav.Fn σ)) (visitanchor : Bool) (fuel : Nat)
    (self : Nat) (ctxt : σ) (depth : Int) :
    Trav.notSkipR (Trav.dfs g fn pre post visitanchor fuel self ctxt depth) ∧
    (∀ res, Trav.bfs g fn pre post visitanchor fuel self ctxt depth =
        Except.ok res → Trav.notSkipR res) ∧
    (Trav.Tame fn → Trav.TameO pre → Trav.TameO post →
      Trav.contR (Trav.dfs g fn pre post visitanchor fuel self ctxt depth) ∧
      (0 < depth →
        Trav.bfs g fn pre post visitanchor fuel self ctxt depth =
          Except.error PyError.typeError)) :=
  ⟨Trav.dfs_notSkip g fn pre post visitanchor fuel self ctxt depth,
   fun res hres =>
     Trav.bfs_ok_notSkip g fn pre post visitanchor fuel self ctxt depth res hres,
   fun hfn hpre hpost =>
     ⟨Trav.dfs_cont g fn pre post visitanchor hfn hpre hpost fuel self ctxt depth,
      fun hdep =>
        Trav.bfs_typeError g fn pre post visitanchor hfn hpre hpost fuel self
          ctxt depth hdep⟩⟩

/-- The skip-everything callback is tame; `C3_skip_subtree` applied to it on
the concrete chain yields a success code for the depth-first walk and the
`TypeError` for the breadth-first one, and applied to the always-stop
callback it shows the code `bfs` does return is not `SKIP_SUBTREE`. -/
theorem C3_skip_subtree_witness :
    Trav.Tame skipAllFn ∧ (0 : Int) < 10 ∧
    Trav.contR (Trav.dfs cg3 skipAllFn none none false 6 1 ([] : List Nat) 10) ∧
    Trav.bfs cg3 skipAllFn none none false 6 1 ([] : List Nat) 10 =
      Except.error PyError.typeError ∧
    Trav.notSkipR
      ((ErrorCode.ERROR_OTHER 7, [1], [1]) : ErrorCode × List Nat × List Nat) := by
  have htame : Trav.Tame skipAllFn := by
    intro v c ml n
    simp [skipAllFn, Trav.Tame]
  have h := (C3_skip_subtree cg3 skipAllFn none none false 6 1
    ([] : List Nat) 10).2.2 htame trivial trivial
  refine ⟨htame, by norm_num, h.1, h.2 (by norm_num), ?_⟩
  exact (C3_skip_subtree cg3 stopFn none none false 6 1 ([] : List Nat) 10).2.1
    (ErrorCode.ERROR_OTHER 7, [1], [1]) (by rfl)
